import Mathlib

/-!
Verification of the X12 claim parser found in
claim_viewer/priv/python/parser_for_viewer.py.

Modelling conventions.  Python strings are modelled as lists of
characters (`PyStr`).  Python dict fields that may be absent are
modelled as `Option` fields; a field that the source always writes on
creation is modelled as a plain field.  Python float values produced by
safe_float are modelled as rationals obtained from a decimal text
parser; no verified claim inspects a numeric value, so the difference
between binary floating point and exact rationals is unobservable here.
Character classes of the source regular expressions ([A-Za-z0-9], the
whitespace class) are the ASCII classes written in the source; the
Python isalnum test of the terminator scan is modelled by the same
ASCII class, which agrees with it on every ASCII character.
-/

abbrev PyStr := List Char

/-- ASCII whitespace, the class stripped by the Python strip method and
matched by the backslash-s class of the source regular expressions. -/
def pySpace (c : Char) : Bool :=
  c = ' ' || c = '\t' || c = '\n' || c = '\r' || c = '\x0b' || c = '\x0c'

/-- The character class [A-Za-z0-9] used by the source regular
expressions, and the ASCII case of the Python isalnum test. -/
def pyAlnum (c : Char) : Bool :=
  ('A' ≤ c && c ≤ 'Z') || ('a' ≤ c && c ≤ 'z') || ('0' ≤ c && c ≤ '9')

/-- Python strip: whitespace removed from both ends. -/
def pyStrip (s : PyStr) : PyStr :=
  ((s.dropWhile pySpace).reverse.dropWhile pySpace).reverse

/-- clean_value: remove every tilde, then strip surrounding whitespace.
The empty-input guard of the source returns the empty string, which the
general computation also produces. -/
def clean_value (v : PyStr) : PyStr :=
  pyStrip (v.filter (fun c => c ≠ '~'))

/-- Python split with a one-character separator and no limit. -/
def splitAll (sep : Char) : List Char → List (List Char)
  | [] => [[]]
  | c :: rest =>
    if c = sep then [] :: splitAll sep rest
    else (splitAll sep rest).modifyHead (fun f => c :: f)

/-- clean_code: strip a colon-separated qualifier, keeping only the
text after the last colon. -/
def clean_code (code : PyStr) : PyStr :=
  if code = [] then []
  else
    let cleaned := clean_value code
    if cleaned.contains ':' then (splitAll ':' cleaned).getLastD [] else cleaned

/-- parse_date: an 8 character YYYYMMDD value becomes YYYY-MM-DD,
anything else passes through unchanged. -/
def parse_date (d : PyStr) : PyStr :=
  if d = [] || d.length ≠ 8 then d
  else d.take 4 ++ '-' :: ((d.drop 4).take 2 ++ '-' :: ((d.drop 6).take 2))

/-- parse_time: a value of length at least 4 becomes HH:MM, anything
shorter passes through unchanged. -/
def parse_time (t : PyStr) : PyStr :=
  if t = [] || t.length < 4 then t
  else t.take 2 ++ ':' :: ((t.drop 2).take 2)

def allDigits (ds : List Char) : Bool := ds.all (fun c => '0' ≤ c && c ≤ '9')

def digitsToNat (ds : List Char) : Nat := ds.foldl (fun a c => a * 10 + (c.toNat - 48)) 0

/-- The Python int constructor on cleaned text: an optional sign
followed by decimal digits. -/
def parseIntPy (s : PyStr) : Option Int :=
  match s with
  | [] => none
  | '+' :: ds => if ds ≠ [] && allDigits ds then some (digitsToNat ds : Int) else none
  | '-' :: ds => if ds ≠ [] && allDigits ds then some (-(digitsToNat ds : Int)) else none
  | ds => if allDigits ds then some (digitsToNat ds : Int) else none

/-- safe_int with the default 0.  The source applies `or default` to
the parsed value, which maps 0 to the default 0 and is thus the
identity here. -/
def safe_int (v : PyStr) : Int :=
  if v = [] then 0
  else
    match parseIntPy (clean_value v) with
    | some n => n
    | none => 0

/-- Unsigned decimal text: digits with an optional fractional part. -/
def parseUnsignedRat (s : PyStr) : Option Rat :=
  match splitAll '.' s with
  | [i] => if i ≠ [] && allDigits i then some ((digitsToNat i : Nat) : Rat) else none
  | [i, f] =>
    if (i ≠ [] || f ≠ []) && allDigits i && allDigits f then
      some (((digitsToNat i : Nat) : Rat) + ((digitsToNat f : Nat) : Rat) / ((10 : Rat) ^ f.length))
    else none
  | _ => none

/-- The Python float constructor on cleaned decimal text. -/
def parseRatPy (s : PyStr) : Option Rat :=
  match s with
  | '+' :: r => parseUnsignedRat r
  | '-' :: r => (parseUnsignedRat r).map (fun q => -q)
  | r => parseUnsignedRat r

/-- safe_float with the default 0. -/
def safe_float (v : PyStr) : Rat :=
  if v = [] then 0
  else
    let cleaned := clean_value v
    if cleaned = [] then 0
    else
      match parseRatPy cleaned with
      | some q => q
      | none => 0

/-- el: safe element accessor with the empty string as default. -/
def el (elements : List PyStr) (index : Nat) : PyStr := elements.getD index []

/-- Python split with a one-character separator and a maxsplit limit:
once the limit is exhausted the remainder is one final chunk. -/
def splitPy (sep : Char) : List Char → Nat → List (List Char)
  | cs, 0 => [cs]
  | [], _ + 1 => [[]]
  | c :: rest, n + 1 =>
    if c = sep then [] :: splitPy sep rest n
    else (splitPy sep rest (n + 1)).modifyHead (fun f => c :: f)

/-- Replace the last entry of a list by its image under f. -/
def modifyLast (f : α → α) : List α → List α
  | [] => []
  | [a] => [f a]
  | a :: b :: rest => a :: modifyLast f (b :: rest)

/-!
## Delimiter detection (read_x12_segments, step 2)
-/

/-- One position of the search for the pattern ISA(.) with IGNORECASE:
does the text begin with the letters I S A in any case followed by one
character that is not a newline (the dot of the pattern does not match
a newline)?  Returns the captured character. -/
def isaHere : List Char → Option Char
  | a :: b :: c :: d :: _ =>
    if (a = 'I' || a = 'i') && (b = 'S' || b = 's') && (c = 'A' || c = 'a')
        && d ≠ '\n' then some d else none
  | _ => none

/-- Leftmost ISA(.) match: returns the text from the match onward and
the captured separator character. -/
def isaFind : List Char → Option (List Char × Char)
  | [] => none
  | c :: rest =>
    match isaHere (c :: rest) with
    | some d => some (c :: rest, d)
    | none => isaFind rest

/-- The class of the captured character in the ST pattern: neither
alphanumeric nor whitespace. -/
def stSepOk (d : Char) : Bool := !(pyAlnum d) && !(pySpace d)

/-- The negative lookbehind of the ST pattern: the previous character,
when there is one, must not be alphanumeric. -/
def prevOk : Option Char → Bool
  | none => true
  | some p => !(pyAlnum p)

/-- One position of the search for the ST pattern. -/
def stHereOk (prev : Option Char) : List Char → Option Char
  | a :: b :: d :: _ =>
    if a = 'S' && b = 'T' && stSepOk d && prevOk prev then some d else none
  | _ => none

/-- Leftmost ST match, carrying the previous character for the
lookbehind. -/
def stFindGo : Option Char → List Char → Option (List Char × Char)
  | _, [] => none
  | prev, c :: rest =>
    match stHereOk prev (c :: rest) with
    | some d => some (c :: rest, d)
    | none => stFindGo (some c) rest

def stFind (cs : List Char) : Option (List Char × Char) := stFindGo none cs

/-- The forward scan for a segment terminator in the ST branch: the
first character that is neither alphanumeric, nor the element
separator, nor harmless punctuation; the tilde is the default. -/
def scanTerm (eleSep : Char) : List Char → Char
  | [] => '~'
  | c :: rest =>
    if !(pyAlnum c || c = eleSep || c = ' ' || c = '\t' || c = ':' || c = '-')
    then c else scanTerm eleSep rest

/-- Delimiter detection of read_x12_segments: given the decoded text,
return the element separator, the segment terminator and the text from
the start of the X12 data, or the message of the RuntimeError raised. -/
def readDelims (content : List Char) : Except PyStr (Char × Char × List Char) :=
  match isaFind content with
  | some (tail, eleSep) =>
    let parts := splitPy eleSep tail 17
    if parts.length < 17 then
      Except.error ("ISA segment does not have 16 element separators.  The file may be malformed.".toList)
    else
      let afterIsa16 := parts.getD 16 []
      if afterIsa16.length < 2 then
        Except.error ("Cannot determine segment terminator from ISA16.  The file may be truncated.".toList)
      else Except.ok (eleSep, afterIsa16.getD 1 ' ', tail)
  | none =>
    match stFind content with
    | none =>
      Except.error ("Not a valid X12 file: no ISA or ST segment found.  Make sure you are uploading an 837 claim file.".toList)
    | some (tail, eleSep) => Except.ok (eleSep, scanTerm eleSep tail, tail)


/-!
## The assembler state machine (parse_x12_for_viewer)
-/

inductive Entity
  | submitter | receiver | billingProvider | payToProvider
  | subscriber | payer | renderingProvider | serviceFacility
deriving DecidableEq

/-- An address dict; every key is written incrementally, so every field
is optional.  The N3 handler creates the dict with only the street key;
the N4 handler adds city, state and zip. -/
structure AddrD where
  street : Option PyStr := none
  city : Option PyStr := none
  state : Option PyStr := none
  zip : Option PyStr := none
deriving DecidableEq

structure Contact where
  name : PyStr
  phone : PyStr
  extension : PyStr
deriving DecidableEq

structure Submitter where
  name : Option PyStr := none
  id : Option PyStr := none
  contact : Option Contact := none
deriving DecidableEq

structure Receiver where
  name : Option PyStr := none
  id : Option PyStr := none
deriving DecidableEq

/-- The billing provider and the pay-to provider dicts. -/
structure Provider where
  name : Option PyStr := none
  taxId : Option PyStr := none
  address : Option AddrD := none
deriving DecidableEq

structure Subscriber where
  firstName : Option PyStr := none
  lastName : Option PyStr := none
  id : Option PyStr := none
  address : Option AddrD := none
  relationship : Option PyStr := none
  groupNumber : Option PyStr := none
  planType : Option PyStr := none
  dob : Option PyStr := none
  sex : Option PyStr := none
deriving DecidableEq

structure Payer where
  name : Option PyStr := none
  payerId : Option PyStr := none
deriving DecidableEq

/-- The payer entry attached to a claim by the NM1 PR handler. -/
structure PayerEntry where
  name : PyStr
  payerId : PyStr
deriving DecidableEq

structure RenderingProv where
  firstName : PyStr
  lastName : PyStr
  npi : PyStr
deriving DecidableEq

structure FacilityRec where
  name : PyStr
  taxId : PyStr
  address : AddrD
deriving DecidableEq

structure Indicators where
  assigned : PyStr
  providerSignature : PyStr
  releaseInfo : PyStr
  patientSignature : PyStr
  relatedCause : PyStr
deriving DecidableEq

/-- One service line dict, as created by the LX handler.  The Python
diagnosisPointer field starts as the empty string and may be replaced
by an integer; the string stage is modelled as none. -/
structure ServiceLine where
  lineNumber : Int
  codeQualifier : PyStr
  procedureCode : PyStr
  charge : Rat
  unitQualifier : PyStr
  units : Rat
  diagnosisPointer : Option Int
  emergencyIndicator : PyStr
  serviceDate : PyStr
  placeOfService : Option PyStr
deriving DecidableEq

structure ClaimRec where
  id : PyStr
  totalCharge : Rat
  placeOfService : PyStr
  serviceType : PyStr
  indicators : Indicators
  onsetDate : PyStr
  clearinghouseClaimNumber : PyStr
  diagPrimary : PyStr
  diagSecondary : List PyStr
  serviceLines : List ServiceLine
  payer : Option PayerEntry
  renderingProvider : Option RenderingProv
  serviceFacility : Option FacilityRec
deriving DecidableEq

structure Transaction where
  type : Option PyStr := none
  controlNumber : Option PyStr := none
  version : Option PyStr := none
  purpose : Option PyStr := none
  referenceId : Option PyStr := none
  date : Option PyStr := none
  time : Option PyStr := none
deriving DecidableEq

/-- The whole mutable state of the parsing loop. -/
structure PState where
  transaction : Transaction
  submitter : Submitter
  receiver : Receiver
  billingProvider : Provider
  payToProvider : Provider
  subscriber : Subscriber
  payer : Payer
  currentClaim : Option ClaimRec
  claimsData : List ClaimRec
  tempAddresses : Option Entity → Option AddrD
  currentEntity : Option Entity

def initState : PState :=
  { transaction := {}, submitter := {}, receiver := {},
    billingProvider := {}, payToProvider := {}, subscriber := {}, payer := {},
    currentClaim := none, claimsData := [],
    tempAddresses := fun _ => none, currentEntity := none }

abbrev Seg := PyStr × List PyStr

/-- Point update of the transient address map. -/
def updateTemp (m : Option Entity → Option AddrD) (k : Option Entity) (v : Option AddrD) :
    Option Entity → Option AddrD :=
  fun k2 => if k2 = k then v else m k2

/-- The NM1 handler: dispatch on the entity qualifier code. -/
def stepNM1 (s : PState) (elements : List PyStr) : PState :=
  let entity_code := clean_value (el elements 1)
  let entity_name := clean_value (el elements 3)
  let entity_fname := clean_value (el elements 4)
  let entity_id := clean_value (el elements 9)
  if entity_code = "41".toList then
    let sub := { s.submitter with name := some entity_name, id := some entity_id }
    { s with currentEntity := some Entity.submitter, submitter := sub }
  else if entity_code = "40".toList then
    let rcv := { s.receiver with name := some entity_name, id := some entity_id }
    { s with currentEntity := some Entity.receiver, receiver := rcv }
  else if entity_code = "85".toList then
    let bp : Provider := { name := some entity_name, taxId := some entity_id, address := some {} }
    { s with currentEntity := some Entity.billingProvider, billingProvider := bp }
  else if entity_code = "87".toList then
    let pp : Provider := { name := some entity_name, taxId := some entity_id, address := some {} }
    { s with currentEntity := some Entity.payToProvider, payToProvider := pp }
  else if entity_code = "IL".toList then
    let sb :=
      { s.subscriber with
        firstName := some entity_fname
        lastName := some entity_name
        id := some entity_id
        address := some {} }
    { s with currentEntity := some Entity.subscriber, subscriber := sb }
  else if entity_code = "PR".toList then
    let s1 := { s with currentEntity := some Entity.payer }
    match s.currentClaim with
    | some c =>
      { s1 with currentClaim := some { c with payer := some { name := entity_name, payerId := entity_id } } }
    | none => { s1 with payer := { name := some entity_name, payerId := some entity_id } }
  else if entity_code = "82".toList then
    let s1 := { s with currentEntity := some Entity.renderingProvider }
    match s.currentClaim with
    | some c =>
      let rp : RenderingProv := { firstName := entity_fname, lastName := entity_name, npi := entity_id }
      { s1 with currentClaim := some { c with renderingProvider := some rp } }
    | none => s1
  else if entity_code = "77".toList then
    let s1 := { s with currentEntity := some Entity.serviceFacility }
    match s.currentClaim with
    | some c =>
      let fc : FacilityRec := { name := entity_name, taxId := entity_id, address := {} }
      { s1 with currentClaim := some { c with serviceFacility := some fc } }
    | none => s1
  else s

/-- The N4 completion of a buffered address. -/
def completeAddr (buf : AddrD) (elements : List PyStr) : AddrD :=
  { buf with
    city := some (clean_value (el elements 1))
    state := some (clean_value (el elements 2))
    zip := some (clean_value (el elements 3)) }

/-- The N4 handler: complete the buffer for the current entity, when
one exists, and commit it for the entities the source commits it for. -/
def stepN4 (s : PState) (elements : List PyStr) : PState :=
  match s.tempAddresses s.currentEntity with
  | none => s
  | some buf =>
    let addr := completeAddr buf elements
    let s1 := { s with tempAddresses := updateTemp s.tempAddresses s.currentEntity (some addr) }
    if s.currentEntity = some Entity.billingProvider then
      { s1 with billingProvider := { s1.billingProvider with address := some addr } }
    else if s.currentEntity = some Entity.payToProvider then
      { s1 with payToProvider := { s1.payToProvider with address := some addr } }
    else if s.currentEntity = some Entity.subscriber then
      { s1 with subscriber := { s1.subscriber with address := some addr } }
    else if s.currentEntity = some Entity.serviceFacility then
      match s.currentClaim with
      | some c =>
        match c.serviceFacility with
        | some f =>
          { s1 with currentClaim := some { c with serviceFacility := some { f with address := addr } } }
        | none => s1
      | none => s1
    else s1

/-- The claim dict created by the CLM handler. -/
def mkClaim (elements : List PyStr) : ClaimRec :=
  { id := clean_value (el elements 1)
    totalCharge := safe_float (el elements 2)
    placeOfService := []
    serviceType := []
    indicators :=
      { assigned := clean_value (el elements 7)
        providerSignature := clean_value (el elements 6)
        releaseInfo := clean_value (el elements 9)
        patientSignature := clean_value (el elements 8)
        relatedCause := [] }
    onsetDate := []
    clearinghouseClaimNumber := []
    diagPrimary := []
    diagSecondary := []
    serviceLines := []
    payer := none
    renderingProvider := none
    serviceFacility := none }

/-- One iteration of the HI loop over the indexed elements. -/
def hiStep (c : ClaimRec) (iv : Nat × PyStr) : ClaimRec :=
  if iv.2 = [] then c
  else
    let code := clean_code iv.2
    if code = [] then c
    else if iv.1 = 1 then { c with diagPrimary := code }
    else { c with diagSecondary := c.diagSecondary ++ [code] }

/-- The HI handler: element 1 is the primary diagnosis code, later
non-empty elements are secondary codes in order. -/
def hiApply (c : ClaimRec) (elements : List PyStr) : ClaimRec :=
  (elements.enum.drop 1).foldl hiStep c

/-- The DTP handler: qualifier 472 dates the last service line,
qualifiers 431 and 454 set the onset date of the open claim. -/
def stepDTP (s : PState) (elements : List PyStr) : PState :=
  let qualifier := clean_value (el elements 1)
  let dateValue := parse_date (clean_value (el elements 3))
  if qualifier = "472".toList then
    match s.currentClaim with
    | some c =>
      if c.serviceLines = [] then s
      else
        let newLines := modifyLast (fun svc => { svc with serviceDate := dateValue }) c.serviceLines
        { s with currentClaim := some { c with serviceLines := newLines } }
    | none => s
  else if qualifier = "431".toList || qualifier = "454".toList then
    match s.currentClaim with
    | some c => { s with currentClaim := some { c with onsetDate := dateValue } }
    | none => s
  else s

/-- The service line dict created by the LX handler. -/
def mkServiceLine (elements : List PyStr) : ServiceLine :=
  { lineNumber := safe_int (el elements 1)
    codeQualifier := []
    procedureCode := []
    charge := 0
    unitQualifier := []
    units := 0
    diagnosisPointer := none
    emergencyIndicator := []
    serviceDate := []
    placeOfService := none }

/-- The line-level part of the SV1 handler, applied to the last service
line of the open claim. -/
def sv1Line (elements : List PyStr) (svc : ServiceLine) : ServiceLine :=
  let proc := clean_value (el elements 1)
  let svc1 :=
    if proc.contains ':' then
      let parts := splitAll ':' proc
      { svc with
        codeQualifier := parts.getD 0 []
        procedureCode := if parts.length > 1 then parts.getD 1 [] else proc }
    else { svc with procedureCode := proc }
  let svc2 :=
    { svc1 with
      charge := safe_float (el elements 2)
      unitQualifier := clean_value (el elements 3)
      units := safe_float (el elements 4) }
  let pos := clean_value (el elements 5)
  let svc3 := if pos ≠ [] then { svc2 with placeOfService := some pos } else svc2
  let diag := el elements 7
  if diag ≠ [] then { svc3 with diagnosisPointer := some (safe_int diag) } else svc3

/-- One iteration of the main parsing loop, keyed on the segment
identifier; unrecognized identifiers leave the state unchanged. -/
def stepSeg (s : PState) (seg : Seg) : PState :=
  let seg_id := seg.1
  let elements := seg.2
  if seg_id = "ISA".toList then
    let sub := { s.submitter with name := some (clean_value (el elements 6)) }
    let rcv :=
      { s.receiver with
        name := some (clean_value (el elements 8))
        id := some (clean_value (el elements 8)) }
    { s with submitter := sub, receiver := rcv }
  else if seg_id = "ST".toList then
    let tx :=
      { s.transaction with
        type := some (clean_value (el elements 1))
        controlNumber := some (clean_value (el elements 2))
        version := some (clean_value (el elements 3)) }
    { s with transaction := tx }
  else if seg_id = "BHT".toList then
    let tx :=
      { s.transaction with
        purpose := some (clean_value (el elements 1))
        referenceId := some (clean_value (el elements 3))
        date := some (parse_date (clean_value (el elements 4)))
        time := some (parse_time (clean_value (el elements 5))) }
    { s with transaction := tx }
  else if seg_id = "NM1".toList then stepNM1 s elements
  else if seg_id = "N3".toList then
    let buf : AddrD := { street := some (clean_value (el elements 1)) }
    { s with tempAddresses := updateTemp s.tempAddresses s.currentEntity (some buf) }
  else if seg_id = "N4".toList then stepN4 s elements
  else if seg_id = "PER".toList then
    if s.currentEntity = some Entity.submitter then
      let ct : Contact :=
        { name := clean_value (el elements 2)
          phone := clean_value (el elements 4)
          extension := clean_value (el elements 6) }
      { s with submitter := { s.submitter with contact := some ct } }
    else s
  else if seg_id = "SBR".toList then
    let rel :=
      let r := clean_value (el elements 2)
      if r = [] then "self".toList else r
    let sb :=
      { s.subscriber with
        relationship := some rel
        groupNumber := some (clean_value (el elements 3))
        planType := some (clean_value (el elements 5)) }
    { s with subscriber := sb }
  else if seg_id = "DMG".toList then
    if s.currentEntity = some Entity.subscriber then
      let sb :=
        { s.subscriber with
          dob := some (parse_date (clean_value (el elements 2)))
          sex := some (clean_value (el elements 3)) }
      { s with subscriber := sb }
    else s
  else if seg_id = "CLM".toList then
    let s1 :=
      match s.currentClaim with
      | some c => { s with claimsData := s.claimsData ++ [c] }
      | none => s
    { s1 with currentClaim := some (mkClaim elements) }
  else if seg_id = "HI".toList then
    match s.currentClaim with
    | some c => { s with currentClaim := some (hiApply c elements) }
    | none => s
  else if seg_id = "DTP".toList then stepDTP s elements
  else if seg_id = "REF".toList then
    match s.currentClaim with
    | some c =>
      if clean_value (el elements 1) = "D9".toList then
        { s with currentClaim := some { c with clearinghouseClaimNumber := clean_value (el elements 2) } }
      else s
    | none => s
  else if seg_id = "LX".toList then
    match s.currentClaim with
    | some c =>
      { s with currentClaim := some { c with serviceLines := c.serviceLines ++ [mkServiceLine elements] } }
    | none => s
  else if seg_id = "SV1".toList then
    match s.currentClaim with
    | some c =>
      if c.serviceLines = [] then s
      else
        let c1 := { c with serviceLines := modifyLast (sv1Line elements) c.serviceLines }
        let pos := clean_value (el elements 5)
        let c2 := if pos ≠ [] && c1.placeOfService = [] then { c1 with placeOfService := pos } else c1
        { s with currentClaim := some c2 }
    | none => s
  else s

def runSegs (segs : List Seg) : PState := segs.foldl stepSeg initState

/-- The committed claims after the end-of-stream commit of the still
open claim. -/
def finalClaims (s : PState) : List ClaimRec := s.claimsData ++ s.currentClaim.toList

/-- The post-processing default: when the pay-to provider was never
named, it becomes a copy of the billing provider.  At this value level
the copy is plain equality; the sharing structure of the shallow
Python copy is studied in the object heap model below. -/
def finalPayTo (s : PState) : Provider :=
  if s.payToProvider.name.getD [] = [] then s.billingProvider else s.payToProvider

/-- The structured content of the RuntimeError message raised when no
claim was found. -/
structure Diagnostic where
  foundIds : List PyStr
  txLabel : PyStr
  eleSep : Char
  segTerm : Char

def txNames : List (PyStr × PyStr) :=
  [("835".toList, "835 Remittance Advice (payment file – not a claim)".toList),
   ("270".toList, "270 Eligibility Inquiry".toList),
   ("271".toList, "271 Eligibility Response".toList),
   ("276".toList, "276 Claim Status Request".toList),
   ("277".toList, "277 Claim Status Response".toList),
   ("278".toList, "278 Prior Authorization".toList),
   ("834".toList, "834 Benefit Enrollment".toList)]

def txLabelOf (t : PyStr) : PyStr :=
  match txNames.lookup t with
  | some l => l
  | none => "transaction type ".toList ++ t

/-- sorted(set(ids)) of the Python diagnostic. -/
def sortedIds (segs : List Seg) : List PyStr :=
  ((segs.map Prod.fst).dedup).insertionSort (fun a b => a ≤ b)

/-- The parsing pipeline from a tokenized segment list onward: run the
loop, commit the last open claim, default the pay-to provider, and
fail with the no-claim diagnostic when no claim was committed. -/
def parseFromSegs (segs : List Seg) (eleSep segTerm : Char) : Except Diagnostic PState :=
  let s := runSegs segs
  let claims := finalClaims s
  if claims = [] then
    let d : Diagnostic :=
      { foundIds := sortedIds segs
        txLabel := txLabelOf (s.transaction.type.getD "unknown".toList)
        eleSep := eleSep
        segTerm := segTerm }
    Except.error d
  else
    Except.ok { s with claimsData := claims, currentClaim := none, payToProvider := finalPayTo s }

/-!
## Derived definitions used by the statements
-/

/-- The projection of the loop onto the service line list of the open
claim: the only handlers that touch it are LX, SV1 and DTP with the
service date qualifier 472. -/
def lineStep (lines : List ServiceLine) (seg : Seg) : List ServiceLine :=
  let seg_id := seg.1
  let elements := seg.2
  if seg_id = "DTP".toList then
    let qualifier := clean_value (el elements 1)
    let dateValue := parse_date (clean_value (el elements 3))
    if qualifier = "472".toList && !(lines = []) then
      modifyLast (fun svc => { svc with serviceDate := dateValue }) lines
    else lines
  else if seg_id = "LX".toList then lines ++ [mkServiceLine elements]
  else if seg_id = "SV1".toList then
    if lines = [] then lines else modifyLast (sv1Line elements) lines
  else lines

/-- The service lines built by one claim window of the stream, starting
from the empty list a fresh claim carries. -/
def windowLines (segs : List Seg) : List ServiceLine := segs.foldl lineStep []

/-- A claim-header segment. -/
def isCLM (seg : Seg) : Bool := seg.1 = "CLM".toList

/-- An NM1 segment whose entity qualifier code is one of the eight
codes the assembler recognizes; only these set the current entity. -/
def recognizedNM1 (seg : Seg) : Bool :=
  seg.1 = "NM1".toList &&
    ["41", "40", "85", "87", "IL", "PR", "82", "77"].any
      (fun q => clean_value (el seg.2 1) = q.toList)

/-- The marker predicate written in the claim about the no-envelope
path: the letters S T followed by one non-alphanumeric character, not
preceded by an alphanumeric character.  It differs from the source
pattern by not excluding whitespace after the marker. -/
def claimStMatchAt (cs : List Char) (i : Nat) : Bool :=
  (match cs.drop i with
   | 'S' :: 'T' :: d :: _ => !(pyAlnum d)
   | _ => false) &&
  (decide (i = 0) || !(pyAlnum (cs.getD (i - 1) '*')))

def claimStExists (cs : List Char) : Bool :=
  (List.range cs.length).any (claimStMatchAt cs)

/-- The character the negative lookbehind inspects when the match is
tried after the text a: the last character of a, or the carried
previous character when a is empty. -/
def beforeChar (prev : Option Char) (a : List Char) : Option Char :=
  match a.getLast? with
  | some x => some x
  | none => prev

/-- An interchange document for the success case of the detector: the
ISA marker, the element separator, fifteen separator-free elements,
the one-character sixteenth element, the segment terminator, and the
remainder of the file. -/
def isaDoc (sep : Char) (es : List PyStr) (c16 term : Char) (rest : PyStr) : PyStr :=
  'I' :: 'S' :: 'A' :: ((es.map (fun e => sep :: e)).flatten ++ sep :: c16 :: term :: rest)

/-!
## An object level model of the pay-to default

The post-processing line copies the billing provider dict with the
shallow dict copy method.  To reason about the sharing this produces,
parties are modelled as objects whose address value is a reference
into a store of address objects, exactly as Python dict values are
references. -/

structure PartyObj where
  name : Option PyStr := none
  taxId : Option PyStr := none
  addrRef : Option Nat := none
deriving DecidableEq

structure ObjHeap where
  parties : List PartyObj
  addrs : List AddrD
deriving DecidableEq

def getParty (h : ObjHeap) (r : Nat) : PartyObj := h.parties.getD r {}

/-- Reading the nested address dict of a party follows the reference. -/
def readAddr (h : ObjHeap) (r : Nat) : Option AddrD :=
  (getParty h r).addrRef.bind (fun i => h.addrs.get? i)

/-- Mutating a top-level field of a party object in place. -/
def setPartyName (h : ObjHeap) (r : Nat) (v : Option PyStr) : ObjHeap :=
  { h with parties := h.parties.set r { getParty h r with name := v } }

/-- Mutating a field of an address object in place; every party whose
addrRef points at index i observes the change. -/
def setAddrCity (h : ObjHeap) (i : Nat) (v : PyStr) : ObjHeap :=
  { h with addrs := h.addrs.set i { h.addrs.getD i {} with city := some v } }

/-- The Python shallow dict copy: a new top-level object whose fields,
including the address reference, are those of the original. -/
def pyCopyParty (h : ObjHeap) (r : Nat) : ObjHeap × Nat :=
  ({ h with parties := h.parties ++ [getParty h r] }, h.parties.length)

/-- The post-processing default at the object level: when the pay-to
provider has no name, rebind it to a shallow copy of the billing
provider. -/
def finalizePayToObj (h : ObjHeap) (billingRef payToRef : Nat) : ObjHeap × Nat :=
  if (getParty h payToRef).name.getD [] = [] then pyCopyParty h billingRef
  else (h, payToRef)

/-!
# Lemmas

## Splitting lemmas
-/

lemma splitAll_ne_nil (sep : Char) (s : List Char) : splitAll sep s ≠ [] := by
  induction s with
  | nil => simp [splitAll]
  | cons c rest ih =>
    unfold splitAll
    by_cases h : c = sep
    · simp [h]
    · simp only [if_neg h]
      cases hs : splitAll sep rest with
      | nil => exact absurd hs ih
      | cons a t => simp [List.modifyHead]

lemma splitAll_of_not_mem (sep : Char) (s : List Char) (h : sep ∉ s) : splitAll sep s = [s] := by
  induction s with
  | nil => rfl
  | cons c rest ih =>
    have hc : ¬(c = sep) := fun e => h (e ▸ List.mem_cons_self c rest)
    have hr : sep ∉ rest := fun m => h (List.mem_cons_of_mem _ m)
    simp [splitAll, hc, ih hr, List.modifyHead]

lemma splitAll_length_ge2 (sep : Char) (s : List Char) (h : sep ∈ s) :
    2 ≤ (splitAll sep s).length := by
  induction s with
  | nil => simp at h
  | cons c rest ih =>
    by_cases hc : c = sep
    · have h1 : 0 < (splitAll sep rest).length :=
        List.length_pos.mpr (splitAll_ne_nil sep rest)
      simp only [splitAll, if_pos hc, List.length_cons]
      omega
    · have hr : sep ∈ rest := by
        rcases List.mem_cons.mp h with h1 | h2
        · exact absurd h1.symm hc
        · exact h2
      have h2 := ih hr
      simp only [splitAll, if_neg hc]
      cases hs : splitAll sep rest with
      | nil => exact absurd hs (splitAll_ne_nil sep rest)
      | cons a t =>
        rw [hs] at h2
        simpa [List.modifyHead] using h2

lemma getLastD_of_ne_nil {l : List α} (h : l ≠ []) (d1 d2 : α) :
    l.getLastD d1 = l.getLastD d2 := by
  obtain ⟨y, hy⟩ := Option.isSome_iff_exists.mp (List.getLast?_isSome.mpr h)
  simp [List.getLastD_eq_getLast?, hy]

lemma getLastD_modifyHead (l : List α) (f : α → α) (d : α) (h : 2 ≤ l.length) :
    (l.modifyHead f).getLastD d = l.getLastD d := by
  match l with
  | a :: b :: t =>
    show (f a :: b :: t).getLastD d = (a :: b :: t).getLastD d
    rw [List.getLastD_eq_getLast?, List.getLastD_eq_getLast?,
      List.getLast?_cons_cons, List.getLast?_cons_cons]

/-- The last chunk of an unlimited split is the text after the last
occurrence of the separator: it follows an occurrence of the separator
(when there is one) and contains none itself. -/
lemma splitAll_last_spec (sep : Char) : ∀ s : PyStr,
    (sep ∉ s → (splitAll sep s).getLastD [] = s) ∧
    (sep ∈ s → ∃ u, s = u ++ sep :: (splitAll sep s).getLastD [] ∧
      sep ∉ (splitAll sep s).getLastD []) := by
  intro s
  induction s with
  | nil =>
    constructor
    · intro _; rfl
    · intro h; simp at h
  | cons c rest ih =>
    by_cases hc : c = sep
    · subst hc
      have heq : (splitAll c (c :: rest)).getLastD [] = (splitAll c rest).getLastD [] := by
        cases hs : splitAll c rest with
        | nil => exact absurd hs (splitAll_ne_nil c rest)
        | cons a t =>
          simp [splitAll, hs, List.getLastD_eq_getLast?, List.getLast?_cons_cons]
      constructor
      · intro h; exact absurd (List.mem_cons_self c rest) h
      · intro _
        by_cases hr : c ∈ rest
        · obtain ⟨u, hu, hnot⟩ := ih.2 hr
          refine ⟨c :: u, ?_, ?_⟩
          · rw [heq, List.cons_append]
            exact congrArg (c :: ·) hu
          · rw [heq]; exact hnot
        · refine ⟨[], ?_, ?_⟩
          · rw [heq, ih.1 hr]; rfl
          · rw [heq, ih.1 hr]; exact hr
    · have hstep : splitAll sep (c :: rest) = (splitAll sep rest).modifyHead (fun f => c :: f) := by
        simp [splitAll, hc]
      constructor
      · intro h
        have hr : sep ∉ rest := fun m => h (List.mem_cons_of_mem _ m)
        rw [hstep, splitAll_of_not_mem sep rest hr]
        rfl
      · intro h
        have hr : sep ∈ rest := by
          rcases List.mem_cons.mp h with h1 | h2
          · exact absurd h1.symm hc
          · exact h2
        have hlen := splitAll_length_ge2 sep rest hr
        have heq : (splitAll sep (c :: rest)).getLastD [] = (splitAll sep rest).getLastD [] := by
          rw [hstep]; exact getLastD_modifyHead _ _ _ hlen
        obtain ⟨u, hu, hnot⟩ := ih.2 hr
        refine ⟨c :: u, ?_, ?_⟩
        · rw [heq, List.cons_append]
          exact congrArg (c :: ·) hu
        · rw [heq]; exact hnot

lemma splitAll_append_of_not_mem (sep : Char) (a : List Char) (t : List Char) (h : sep ∉ a) :
    splitAll sep (a ++ sep :: t) = a :: splitAll sep t := by
  induction a with
  | nil => simp [splitAll]
  | cons c a2 ih =>
    have hc : ¬(c = sep) := fun e => h (e ▸ List.mem_cons_self c a2)
    have ha2 : sep ∉ a2 := fun m => h (List.mem_cons_of_mem _ m)
    simp [splitAll, hc, ih ha2, List.modifyHead]

lemma modifyLast_getLast? (f : α → α) : ∀ l : List α, l ≠ [] →
    (modifyLast f l).getLast? = (l.getLast?).map f := by
  intro l
  induction l with
  | nil => intro h; exact absurd rfl h
  | cons a t ih =>
    intro _
    cases t with
    | nil => rfl
    | cons b t2 =>
      have hne : modifyLast f (b :: t2) ≠ [] := by
        cases t2 <;> simp [modifyLast]
      show (a :: modifyLast f (b :: t2)).getLast? = ((a :: b :: t2).getLast?).map f
      cases hm : modifyLast f (b :: t2) with
      | nil => exact absurd hm hne
      | cons m mt =>
        rw [List.getLast?_cons_cons, ← hm, ih (by simp), List.getLast?_cons_cons]

/-!
## C8: the clean-code normalizer
-/

/-- C8.  For every input string, clean_code returns the suffix after
the last colon when the cleaned value contains a colon (the returned
value follows a colon and contains none itself), and otherwise returns
the cleaned value unchanged; in particular the value ABK:K0230
normalizes to K0230 and the value K0230 normalizes to K0230. -/
theorem clean_code_spec :
    (∀ code : PyStr,
      ((clean_value code).contains ':' = true →
        ∃ u, clean_value code = u ++ ':' :: clean_code code ∧ ':' ∉ clean_code code) ∧
      ((clean_value code).contains ':' = false → clean_code code = clean_value code)) ∧
    clean_code "ABK:K0230".toList = "K0230".toList ∧
    clean_code "K0230".toList = "K0230".toList := by
  refine ⟨?_, by decide, by decide⟩
  intro code
  constructor
  · intro hcontains
    have hmem : ':' ∈ clean_value code := List.elem_iff.mp hcontains
    have hne : code ≠ [] := by
      intro h
      rw [h] at hmem
      simp [clean_value, pyStrip] at hmem
    have hcc : clean_code code = (splitAll ':' (clean_value code)).getLastD [] := by
      simp [clean_code, hne, hmem]
    obtain ⟨u, hu, hnot⟩ := (splitAll_last_spec ':' (clean_value code)).2 hmem
    exact ⟨u, by rw [hcc]; exact hu, by rw [hcc]; exact hnot⟩
  · intro hcontains
    have hnotmem : ':' ∉ clean_value code := by
      intro m
      have hm : (clean_value code).contains ':' = true := List.elem_iff.mpr m
      rw [hm] at hcontains
      simp at hcontains
    by_cases hne : code = []
    · subst hne
      simp [clean_code, clean_value, pyStrip]
    · simp [clean_code, hne, hnotmem]

/-- C8 witness at the concrete input ABK:K0230. -/
theorem clean_code_spec_witness :
    ∃ u, clean_value "ABK:K0230".toList =
        u ++ ':' :: clean_code "ABK:K0230".toList ∧
      ':' ∉ clean_code "ABK:K0230".toList :=
  (clean_code_spec.1 "ABK:K0230".toList).1 (by decide)

/-!
## C10: the SV1 colon split keeps the text between the first two colons
-/

/-- The SV1 branch of the loop, as an equation for rewriting. -/
lemma stepSeg_SV1 (s : PState) (elements : List PyStr) :
    stepSeg s ("SV1".toList, elements) =
      (match s.currentClaim with
       | some c =>
         if c.serviceLines = [] then s
         else
           let c1 : ClaimRec := { c with serviceLines := modifyLast (sv1Line elements) c.serviceLines }
           let pos := clean_value (el elements 5)
           let c2 := if pos ≠ [] && c1.placeOfService = [] then { c1 with placeOfService := pos } else c1
           { s with currentClaim := some c2 }
       | none => s) := rfl

/-- C10.  For an SV1 segment whose cleaned procedure field has the
shape a : b : t with a and b colon-free, the last service line of the
open claim gets code qualifier a and procedure code b (the text
between the first and the second colon, not the last-colon rule); for
the shape a : with nothing after the single colon the procedure code
becomes empty.  The last clause ties the handler to the loop: the SV1
branch rewrites exactly the last service line by sv1Line. -/
theorem sv1_colon_spec :
    (∀ (elements : List PyStr) (svc : ServiceLine) (a b t : PyStr),
      clean_value (el elements 1) = a ++ ':' :: (b ++ ':' :: t) → ':' ∉ a → ':' ∉ b →
        (sv1Line elements svc).codeQualifier = a ∧ (sv1Line elements svc).procedureCode = b) ∧
    (∀ (elements : List PyStr) (svc : ServiceLine) (a : PyStr),
      clean_value (el elements 1) = a ++ [':'] → ':' ∉ a →
        (sv1Line elements svc).procedureCode = []) ∧
    (∀ (s : PState) (c : ClaimRec) (elements : List PyStr) (last2 : ServiceLine),
      s.currentClaim = some c → c.serviceLines.getLast? = some last2 →
      ∃ c2, (stepSeg s ("SV1".toList, elements)).currentClaim = some c2 ∧
        c2.serviceLines.getLast? = some (sv1Line elements last2)) := by
  refine ⟨?_, ?_, ?_⟩
  · intro elements svc a b t hproc ha hb
    have hmem : ':' ∈ clean_value (el elements 1) := by
      rw [hproc]
      exact List.mem_append_right a (List.mem_cons_self ':' _)
    have hcontains : (clean_value (el elements 1)).contains ':' = true := List.elem_iff.mpr hmem
    have hsplit : splitAll ':' (clean_value (el elements 1)) =
        a :: b :: splitAll ':' t := by
      rw [hproc, splitAll_append_of_not_mem ':' a _ ha, splitAll_append_of_not_mem ':' b t hb]
    have hlen : (a :: b :: splitAll ':' t).length > 1 := by simp
    constructor
    · simp only [sv1Line, hcontains, if_pos, hsplit]
      split_ifs <;> simp_all
    · simp only [sv1Line, hcontains, if_pos, hsplit]
      split_ifs <;> simp_all
  · intro elements svc a hproc ha
    have hmem : ':' ∈ clean_value (el elements 1) := by
      rw [hproc]
      exact List.mem_append_right a (List.mem_cons_self ':' _)
    have hcontains : (clean_value (el elements 1)).contains ':' = true := List.elem_iff.mpr hmem
    have hsplit : splitAll ':' (clean_value (el elements 1)) = a :: [[]] := by
      have h2 : a ++ [':'] = a ++ ':' :: ([] : PyStr) := rfl
      rw [hproc, h2, splitAll_append_of_not_mem ':' a _ ha]
      rfl
    have hlen : (a :: [([] : PyStr)]).length > 1 := by simp
    simp only [sv1Line, hcontains, if_pos, hsplit]
    split_ifs <;> simp_all
  · intro s c elements last2 hc hlast
    have hne : ¬(c.serviceLines = []) := by
      intro h
      rw [h] at hlast
      simp at hlast
    have hgl : (modifyLast (sv1Line elements) c.serviceLines).getLast? =
        some (sv1Line elements last2) := by
      rw [modifyLast_getLast? (sv1Line elements) c.serviceLines hne, hlast]
      rfl
    rw [stepSeg_SV1 s elements, hc]
    simp only [if_neg hne]
    refine ⟨_, rfl, ?_⟩
    split_ifs <;> simp [hgl]

/-!
## Lemmas on the limited split, toward C3
-/

lemma splitPy_ne_nil (sep : Char) : ∀ (cs : List Char) (n : Nat), splitPy sep cs n ≠ [] := by
  intro cs
  induction cs with
  | nil => intro n; cases n <;> simp [splitPy]
  | cons c rest ih =>
    intro n
    cases n with
    | zero => simp [splitPy]
    | succ m =>
      simp only [splitPy]
      by_cases h : c = sep
      · simp [h]
      · simp only [if_neg h]
        cases hs : splitPy sep rest (m + 1) with
        | nil => exact absurd hs (ih (m + 1))
        | cons a t => simp [List.modifyHead]

/-- A separator-free chunk followed by a separator is cut off whole
when at least one split remains in the budget. -/
lemma splitPy_chunk (sep : Char) : ∀ (x R : List Char) (m : Nat), sep ∉ x →
    splitPy sep (x ++ sep :: R) (m + 1) = x :: splitPy sep R m := by
  intro x
  induction x with
  | nil => intro R m _; simp [splitPy]
  | cons c x2 ih =>
    intro R m h
    have hc : ¬(c = sep) := fun e => h (e ▸ List.mem_cons_self c x2)
    have hx2 : sep ∉ x2 := fun m2 => h (List.mem_cons_of_mem _ m2)
    show splitPy sep (c :: (x2 ++ sep :: R)) (m + 1) = _
    simp only [splitPy, if_neg hc]
    rw [ih R m hx2]
    simp [List.modifyHead]

/-- The shape of the limited split of a well-formed interchange header:
the marker chunk, the fifteen inner elements, and a chunk that starts
with the one-character sixteenth element followed by the terminator. -/
lemma splitPy_isaDoc (sep c16 term : Char) (rest : PyStr)
    (hc16 : c16 ≠ sep) (hterm : term ≠ sep) :
    ∀ (es : List PyStr) (x : PyStr), sep ∉ x → (∀ e ∈ es, sep ∉ e) →
    ∃ u ts, splitPy sep (x ++ ((es.map (fun e => sep :: e)).flatten ++ sep :: c16 :: term :: rest))
        (es.length + 2) = x :: (es ++ (c16 :: term :: u) :: ts) := by
  intro es
  induction es with
  | nil =>
    intro x hx _
    cases hs : splitPy sep rest 1 with
    | nil => exact absurd hs (splitPy_ne_nil sep rest 1)
    | cons u ts =>
      refine ⟨u, ts, ?_⟩
      show splitPy sep (x ++ sep :: (c16 :: term :: rest)) (1 + 1) = _
      rw [splitPy_chunk sep x _ 1 hx]
      have h1 : splitPy sep (c16 :: term :: rest) 1 = (c16 :: term :: u) :: ts := by
        simp only [splitPy, if_neg hc16, if_neg hterm, hs]
        simp [List.modifyHead]
      rw [h1]
      rfl
  | cons e es2 ih =>
    intro x hx hes
    have he : sep ∉ e := hes e (List.mem_cons_self e es2)
    have hes2 : ∀ e2 ∈ es2, sep ∉ e2 := fun e2 m => hes e2 (List.mem_cons_of_mem _ m)
    obtain ⟨u, ts, hu⟩ := ih e he hes2
    refine ⟨u, ts, ?_⟩
    have hshape : x ++ (((e :: es2).map (fun e2 => sep :: e2)).flatten ++ sep :: c16 :: term :: rest)
        = x ++ sep :: (e ++ ((es2.map (fun e2 => sep :: e2)).flatten ++ sep :: c16 :: term :: rest)) := by
      simp
    rw [hshape]
    have hlen : (e :: es2).length + 2 = (es2.length + 2) + 1 := by simp
    rw [hlen, splitPy_chunk sep x _ (es2.length + 2) hx, hu]
    rfl

/-- The head of the element block of an interchange document is the
separator, whether or not any inner elements exist. -/
lemma flatten_sep_head (sep : Char) (es : List PyStr) (X : List Char) :
    ∃ Y, ((es.map (fun e => sep :: e)).flatten ++ sep :: X) = sep :: Y := by
  cases es with
  | nil => exact ⟨X, rfl⟩
  | cons e es2 =>
    exact ⟨e ++ ((es2.map (fun e2 => sep :: e2)).flatten ++ sep :: X), by simp⟩

/-!
## C3: the ISA path of the delimiter detector
-/

/-- C3.  For a valid interchange document (the ISA marker, a separator
that is not a newline, does not occur in any element and is not one of
the marker letters, fifteen inner elements, a one-character sixteenth
element, and a terminator distinct from the separator), the detector
returns exactly the character following the sixteenth element as the
segment terminator; and whenever an ISA marker is found, it fails with
the format error when the limited split yields fewer than 17 pieces,
or when the isolated remainder is shorter than 2 characters. -/
theorem isa_terminator_spec :
    (∀ (sep c16 term : Char) (es : List PyStr) (rest : PyStr),
      es.length = 15 → (∀ e ∈ es, sep ∉ e) →
      sep ∉ ['I', 'S', 'A'] → sep ≠ '\n' → c16 ≠ sep → term ≠ sep →
      readDelims (isaDoc sep es c16 term rest) =
        Except.ok (sep, term, isaDoc sep es c16 term rest)) ∧
    (∀ (content tail : List Char) (sep : Char),
      isaFind content = some (tail, sep) →
      ((splitPy sep tail 17).length < 17 → ∃ m, readDelims content = Except.error m) ∧
      (¬(splitPy sep tail 17).length < 17 →
        ((splitPy sep tail 17).getD 16 []).length < 2 →
        ∃ m, readDelims content = Except.error m)) := by
  constructor
  · intro sep c16 term es rest hlen hes hisa hnl hc16 hterm
    obtain ⟨Y, hY⟩ := flatten_sep_head sep es (c16 :: term :: rest)
    have hfind : isaFind (isaDoc sep es c16 term rest) =
        some (isaDoc sep es c16 term rest, sep) := by
      show isaFind ('I' :: 'S' :: 'A' ::
          ((es.map (fun e => sep :: e)).flatten ++ sep :: c16 :: term :: rest)) =
        some (('I' :: 'S' :: 'A' ::
          ((es.map (fun e => sep :: e)).flatten ++ sep :: c16 :: term :: rest) : List Char), sep)
      rw [hY]
      simp [isaFind, isaHere, hnl]
    have hx : sep ∉ (['I', 'S', 'A'] : List Char) := hisa
    obtain ⟨u, ts, hparts⟩ :=
      splitPy_isaDoc sep c16 term rest hc16 hterm es ['I', 'S', 'A'] hx hes
    have h17 : splitPy sep (isaDoc sep es c16 term rest) 17 =
        ['I', 'S', 'A'] :: (es ++ (c16 :: term :: u) :: ts) := by
      rw [hlen] at hparts
      exact hparts
    have hlen17 : ¬(splitPy sep (isaDoc sep es c16 term rest) 17).length < 17 := by
      rw [h17]
      simp [hlen]
      omega
    have hchunk : (splitPy sep (isaDoc sep es c16 term rest) 17).getD 16 [] =
        c16 :: term :: u := by
      rw [h17]
      have hsh : (['I', 'S', 'A'] :: (es ++ (c16 :: term :: u) :: ts))
          = ((['I', 'S', 'A'] :: es) ++ ((c16 :: term :: u) :: ts)) := by simp
      rw [hsh, List.getD_eq_getElem?_getD, List.getElem?_append_right (by simp [hlen])]
      simp [hlen]
    simp only [readDelims, hfind]
    rw [if_neg hlen17, hchunk]
    simp
  · intro content tail sep hfind
    constructor
    · intro h
      refine ⟨"ISA segment does not have 16 element separators.  The file may be malformed.".toList, ?_⟩
      simp only [readDelims, hfind]
      rw [if_pos h]
    · intro h1 h2
      refine ⟨"Cannot determine segment terminator from ISA16.  The file may be truncated.".toList, ?_⟩
      simp only [readDelims, hfind]
      rw [if_neg h1, if_pos h2]

/-- C3 witness at a concrete valid document with separator star,
empty elements, sixteenth element colon and terminator tilde. -/
theorem isa_terminator_spec_witness :
    readDelims (isaDoc '*' (List.replicate 15 []) ':' '~' []) =
      Except.ok ('*', '~', isaDoc '*' (List.replicate 15 []) ':' '~' []) :=
  isa_terminator_spec.1 '*' ':' '~' (List.replicate 15 []) []
    (by decide) (by decide) (by decide) (by decide) (by decide) (by decide)

/-!
## Lemmas on the ST search, toward C4 and C5
-/

lemma beforeChar_none (a : List Char) : beforeChar none a = a.getLast? := by
  unfold beforeChar
  cases a.getLast? <;> rfl

lemma beforeChar_cons (prev : Option Char) (a0 : Char) (a2 : List Char) :
    beforeChar prev (a0 :: a2) = beforeChar (some a0) a2 := by
  unfold beforeChar
  cases a2 with
  | nil => rfl
  | cons b t =>
    rw [List.getLast?_cons_cons]
    obtain ⟨y, hy⟩ := Option.isSome_iff_exists.mp
      (List.getLast?_isSome.mpr (by simp : (b :: t) ≠ ([] : List Char)))
    rw [hy]

lemma stHereOk_of (prev : Option Char) (d : Char) (r : List Char)
    (hd : stSepOk d = true) (hp : prevOk prev = true) :
    stHereOk prev ('S' :: 'T' :: d :: r) = some d := by
  simp [stHereOk, hd, hp]

lemma stHereOk_none_spec (prev : Option Char) (cs : List Char) (h : stHereOk prev cs = none) :
    ∀ d r, cs = 'S' :: 'T' :: d :: r → ¬(stSepOk d = true ∧ prevOk prev = true) := by
  rintro d r hcs ⟨hd, hp⟩
  rw [hcs, stHereOk_of prev d r hd hp] at h
  exact Option.noConfusion h

lemma stHereOk_some_spec (prev : Option Char) (cs : List Char) (d : Char)
    (h : stHereOk prev cs = some d) :
    ∃ r, cs = 'S' :: 'T' :: d :: r ∧ stSepOk d = true ∧ prevOk prev = true := by
  cases cs with
  | nil => exact absurd h (by simp [stHereOk])
  | cons a cs1 =>
    cases cs1 with
    | nil => exact absurd h (by simp [stHereOk])
    | cons b cs2 =>
      cases cs2 with
      | nil => exact absurd h (by simp [stHereOk])
      | cons d2 r =>
        by_cases hcond : (a = 'S' && b = 'T' && stSepOk d2 && prevOk prev) = true
        · have hs : stHereOk prev (a :: b :: d2 :: r) = some d2 := by
            simp only [stHereOk, if_pos hcond]
          rw [hs] at h
          obtain rfl : d2 = d := Option.some.inj h
          simp only [Bool.and_eq_true, decide_eq_true_eq] at hcond
          obtain ⟨⟨⟨ha, hb⟩, hsep⟩, hprev⟩ := hcond
          subst ha
          subst hb
          exact ⟨r, rfl, hsep, hprev⟩
        · have hs : stHereOk prev (a :: b :: d2 :: r) = none := by
            simp only [stHereOk, if_neg hcond]
          rw [hs] at h
          exact Option.noConfusion h

lemma stFindGo_eq_none (cs : List Char) : ∀ (prev : Option Char), stFindGo prev cs = none →
    ∀ a d r, cs = a ++ 'S' :: 'T' :: d :: r → stSepOk d = true →
      prevOk (beforeChar prev a) = true → False := by
  induction cs with
  | nil =>
    intro prev _ a d r hcs _ _
    exact absurd hcs (by simp)
  | cons c rest ih =>
    intro prev hnone a d r hcs hd hp
    cases hh : stHereOk prev (c :: rest) with
    | some d2 =>
      have hso : stFindGo prev (c :: rest) = some (c :: rest, d2) := by
        simp [stFindGo, hh]
      rw [hso] at hnone
      exact Option.noConfusion hnone
    | none =>
      have hrec : stFindGo (some c) rest = none := by
        have h2 : stFindGo prev (c :: rest) = stFindGo (some c) rest := by
          simp [stFindGo, hh]
        rw [← h2]
        exact hnone
      cases a with
      | nil =>
        simp only [List.nil_append] at hcs
        exact stHereOk_none_spec prev (c :: rest) hh d r hcs ⟨hd, hp⟩
      | cons a0 a2 =>
        rw [List.cons_append] at hcs
        obtain ⟨heq, hrest⟩ := List.cons.inj hcs
        subst heq
        rw [beforeChar_cons] at hp
        exact ih (some c) hrec a2 d r hrest hd hp

lemma stFindGo_some_spec (cs : List Char) : ∀ (prev : Option Char) (t : List Char) (d : Char),
    stFindGo prev cs = some (t, d) →
    ∃ a r, cs = a ++ 'S' :: 'T' :: d :: r ∧ t = 'S' :: 'T' :: d :: r ∧ stSepOk d = true ∧
      prevOk (beforeChar prev a) = true ∧
      ∀ a2 d2 r2, cs = a2 ++ 'S' :: 'T' :: d2 :: r2 → stSepOk d2 = true →
        prevOk (beforeChar prev a2) = true → a.length ≤ a2.length := by
  induction cs with
  | nil =>
    intro prev t d h
    exact absurd h (by simp [stFindGo])
  | cons c rest ih =>
    intro prev t d h
    cases hh : stHereOk prev (c :: rest) with
    | some d2 =>
      have hso : stFindGo prev (c :: rest) = some (c :: rest, d2) := by
        simp [stFindGo, hh]
      rw [hso] at h
      have hpair : (c :: rest, d2) = (t, d) := Option.some.inj h
      have ht : t = c :: rest := (congrArg Prod.fst hpair).symm
      have hd2 : d2 = d := congrArg Prod.snd hpair
      subst hd2
      subst ht
      obtain ⟨r0, hshape, hsep, hprev⟩ := stHereOk_some_spec prev (c :: rest) d2 hh
      refine ⟨[], r0, by simpa using hshape, hshape, hsep, hprev, ?_⟩
      intro a2 _ _ _ _ _
      exact Nat.zero_le _
    | none =>
      have hrec : stFindGo (some c) rest = some (t, d) := by
        have h2 : stFindGo prev (c :: rest) = stFindGo (some c) rest := by
          simp [stFindGo, hh]
        rw [← h2]
        exact h
      obtain ⟨a2, r, hcs, ht, hsep, hprev, hmin⟩ := ih (some c) t d hrec
      refine ⟨c :: a2, r, by rw [List.cons_append, hcs], ht, hsep, ?_, ?_⟩
      · rw [beforeChar_cons]
        exact hprev
      · intro a3 d3 r3 h3 hsep3 hprev3
        cases a3 with
        | nil =>
          exfalso
          simp only [List.nil_append] at h3
          exact stHereOk_none_spec prev (c :: rest) hh d3 r3 h3 ⟨hsep3, hprev3⟩
        | cons b3 a3' =>
          rw [List.cons_append] at h3
          obtain ⟨heq, hrest⟩ := List.cons.inj h3
          subst heq
          rw [beforeChar_cons] at hprev3
          have := hmin a3' d3 r3 hrest hsep3 hprev3
          simp only [List.length_cons]
          omega

lemma scanTerm_not_alnum (sep : Char) : ∀ cs : List Char, pyAlnum (scanTerm sep cs) = false := by
  intro cs
  induction cs with
  | nil => rfl
  | cons c rest ih =>
    simp only [scanTerm]
    split_ifs with h
    · simp only [Bool.not_eq_true', Bool.or_eq_false_iff] at h
      exact h.1.1.1.1.1
    · exact ih

/-!
## C4: the delimiter invariant fails on the ISA path
-/

/-- The document that refutes C4: an ISA marker followed by the digit
zero, which the detector accepts as element separator. -/
def c4doc : PyStr := "ISA0000000000000000:~X".toList

/-- Every chunk of the bounded split below the maxsplit index is free
of the separator: only the final capped remainder can still contain
it. -/
lemma splitPy_sep_free (sep : Char) : ∀ (cs : List Char) (n i : Nat), i < n →
    sep ∉ (splitPy sep cs n).getD i [] := by
  intro cs
  induction cs with
  | nil =>
    intro n i hi
    cases n with
    | zero => omega
    | succ m =>
      cases i with
      | zero => simp [splitPy]
      | succ j => simp [splitPy]
  | cons c rest ih =>
    intro n i hi
    cases n with
    | zero => omega
    | succ m =>
      simp only [splitPy]
      by_cases hc : c = sep
      · rw [if_pos hc]
        cases i with
        | zero => simp
        | succ j =>
          rw [List.getD_cons_succ]
          exact ih m j (by omega)
      · rw [if_neg hc]
        cases hs : splitPy sep rest (m + 1) with
        | nil => exact absurd hs (splitPy_ne_nil sep rest (m + 1))
        | cons a t =>
          simp only [List.modifyHead]
          cases i with
          | zero =>
            rw [List.getD_cons_zero]
            intro hmem
            rcases List.mem_cons.mp hmem with h | h
            · exact hc h.symm
            · have ha := ih (m + 1) 0 (by omega)
              rw [hs, List.getD_cons_zero] at ha
              exact ha h
          | succ j =>
            rw [List.getD_cons_succ]
            have ha := ih (m + 1) (j + 1) (by omega)
            rw [hs, List.getD_cons_succ] at ha
            exact ha

/-- C4 counterexample.  Delimiter detection succeeds on c4doc and
returns the alphanumeric character zero as element separator, so the
invariant that the detected delimiters are non-alphanumeric fails, and
with it the claim that the detector only accepts an ISA marker whose
following character is non-alphanumeric; and on the headerless
document made of the letters S, T and a tilde, detection succeeds with
the tilde as both separator and terminator (the terminator scan falls
back to its tilde default), so the claimed distinctness of the two
delimiters fails as well. -/
theorem delimiter_invariant_counterexample :
    (readDelims c4doc = Except.ok ('0', '~', c4doc) ∧ pyAlnum '0' = true) ∧
    readDelims "ST~".toList = Except.ok ('~', '~', "ST~".toList) := by
  refine ⟨⟨rfl, by decide⟩, rfl⟩

/-- C4 amended.  On the no-envelope (ST) path the detected element
separator is non-alphanumeric and non-whitespace and the detected
segment terminator is non-alphanumeric, but the two may coincide; on
the ISA path the captured separator is unconstrained (any non-newline
character), and the terminator always differs from the separator,
because it is the second character of chunk 16 of the bounded split,
which is separator-free. -/
theorem delimiter_classes_spec :
    ∀ (cs tail : List Char) (sep term : Char),
      readDelims cs = Except.ok (sep, term, tail) →
      (isaFind cs = none →
        pyAlnum sep = false ∧ pySpace sep = false ∧ pyAlnum term = false) ∧
      (isaFind cs ≠ none → term ≠ sep) := by
  intro cs tail sep term hok
  constructor
  · intro hisa
    cases hf : stFind cs with
    | none =>
      simp only [readDelims, hisa, hf] at hok
      exact Except.noConfusion hok
    | some td =>
      obtain ⟨t0, d0⟩ := td
      simp only [readDelims, hisa, hf] at hok
      have hp : (d0, scanTerm d0 t0, t0) = (sep, term, tail) := by
        injection hok
      have hd : d0 = sep := congrArg (fun x => x.1) hp
      have hterm : scanTerm d0 t0 = term := congrArg (fun x => x.2.1) hp
      subst hd
      obtain ⟨a, r, _, _, hsep, _, _⟩ := stFindGo_some_spec cs none t0 d0 hf
      simp only [stSepOk, Bool.and_eq_true, Bool.not_eq_true'] at hsep
      exact ⟨hsep.1, hsep.2, by rw [← hterm]; exact scanTerm_not_alnum d0 t0⟩
  · intro hisa
    cases hi : isaFind cs with
    | none => exact absurd hi hisa
    | some td =>
      obtain ⟨t0, d0⟩ := td
      simp only [readDelims, hi] at hok
      split_ifs at hok with h1 h2
      have hp : (d0, ((splitPy d0 t0 17).getD 16 []).getD 1 ' ', t0) =
          (sep, term, tail) := by injection hok
      have hd : d0 = sep := congrArg (fun x => x.1) hp
      have hterm : ((splitPy d0 t0 17).getD 16 []).getD 1 ' ' = term :=
        congrArg (fun x => x.2.1) hp
      have hlen : 1 < ((splitPy d0 t0 17).getD 16 []).length := by omega
      have hmem : ((splitPy d0 t0 17).getD 16 []).getD 1 ' ' ∈
          (splitPy d0 t0 17).getD 16 [] := by
        generalize (splitPy d0 t0 17).getD 16 [] = l at hlen ⊢
        rw [List.getD_eq_getElem?_getD, List.getElem?_eq_getElem hlen]
        exact List.getElem_mem hlen
      have hfree : d0 ∉ (splitPy d0 t0 17).getD 16 [] :=
        splitPy_sep_free d0 t0 17 16 (by omega)
      rw [← hterm, ← hd]
      intro heq
      rw [heq] at hmem
      exact hfree hmem

/-- C4 amended, witness: the ST-path classes at the concrete document
ST*A~, and the ISA-path distinctness at the document c4doc. -/
theorem delimiter_classes_spec_witness :
    (pyAlnum '*' = false ∧ pySpace '*' = false ∧ pyAlnum '~' = false) ∧
      ¬ ('~' : Char) = '0' :=
  ⟨(delimiter_classes_spec "ST*A~".toList "ST*A~".toList '*' '~' (by rfl)).1 (by rfl),
   (delimiter_classes_spec c4doc c4doc '0' '~' (by rfl)).2 (by decide)⟩

/-!
## C5: detection on documents without an interchange header
-/

/-- The document that refutes C5 as stated: the letters S T followed by
a space.  A space is non-alphanumeric, so the stated marker predicate
holds, yet the source pattern excludes whitespace and detection fails. -/
def c5doc : PyStr := "ST ".toList

/-- C5 counterexample.  The document has no interchange header and
contains an ST marker followed by a non-alphanumeric character with no
alphanumeric character before it, yet delimiter detection fails. -/
theorem st_whitespace_counterexample :
    isaFind c5doc = none ∧ claimStExists c5doc = true ∧
      readDelims c5doc = Except.error
        ("Not a valid X12 file: no ISA or ST segment found.  Make sure you are uploading an 837 claim file.".toList) := by
  refine ⟨rfl, by decide, rfl⟩

/-- C5 amended.  For a document with no interchange header, detection
succeeds exactly when the text splits around an ST marker followed by
one character that is neither alphanumeric nor whitespace and whose
preceding character, if any, is not alphanumeric; on success the
element separator is the character following the leftmost such marker. -/
theorem st_detection_spec :
    ∀ cs : List Char, isaFind cs = none →
      ((∃ v, readDelims cs = Except.ok v) ↔
        ∃ a d r, cs = a ++ 'S' :: 'T' :: d :: r ∧ stSepOk d = true ∧
          prevOk a.getLast? = true) ∧
      (∀ sep term tail, readDelims cs = Except.ok (sep, term, tail) →
        ∃ a r, cs = a ++ 'S' :: 'T' :: sep :: r ∧ stSepOk sep = true ∧
          prevOk a.getLast? = true ∧
          ∀ a2 d2 r2, cs = a2 ++ 'S' :: 'T' :: d2 :: r2 → stSepOk d2 = true →
            prevOk a2.getLast? = true → a.length ≤ a2.length) := by
  intro cs hisa
  constructor
  · constructor
    · rintro ⟨v, hv⟩
      cases hf : stFind cs with
      | none =>
        simp only [readDelims, hisa, hf] at hv
        exact Except.noConfusion hv
      | some td =>
        obtain ⟨t0, d0⟩ := td
        obtain ⟨a, r, hcs, _, hsep, hprev, _⟩ := stFindGo_some_spec cs none t0 d0 hf
        rw [beforeChar_none] at hprev
        exact ⟨a, d0, r, hcs, hsep, hprev⟩
    · rintro ⟨a, d, r, hcs, hsep, hprev⟩
      cases hf : stFind cs with
      | none =>
        exact (stFindGo_eq_none cs none hf a d r hcs hsep
          (by rw [beforeChar_none]; exact hprev)).elim
      | some td =>
        obtain ⟨t0, d0⟩ := td
        exact ⟨(d0, scanTerm d0 t0, t0), by simp only [readDelims, hisa, hf]⟩
  · intro sep term tail hok
    cases hf : stFind cs with
    | none =>
      simp only [readDelims, hisa, hf] at hok
      exact Except.noConfusion hok
    | some td =>
      obtain ⟨t0, d0⟩ := td
      simp only [readDelims, hisa, hf] at hok
      have hp : (d0, scanTerm d0 t0, t0) = (sep, term, tail) := by
        injection hok
      have hd : d0 = sep := congrArg (fun x => x.1) hp
      subst hd
      obtain ⟨a, r, hcs, _, hsep, hprev, hmin⟩ := stFindGo_some_spec cs none t0 d0 hf
      rw [beforeChar_none] at hprev
      refine ⟨a, r, hcs, hsep, hprev, ?_⟩
      intro a2 d2 r2 h2 hs2 hp2
      exact hmin a2 d2 r2 h2 hs2 (by rw [beforeChar_none]; exact hp2)

/-- C5 amended, witness at the concrete document ST*A~. -/
theorem st_detection_spec_witness :
    ∃ v, readDelims "ST*A~".toList = Except.ok v :=
  ((st_detection_spec "ST*A~".toList (by rfl)).1).mpr
    ⟨[], '*', "A~".toList, by decide, by decide, by decide⟩

/-- C10 witness at a concrete SV1 segment with two colons. -/
theorem sv1_colon_spec_witness :
    (sv1Line ["SV1".toList, "HC:99213:X".toList] (mkServiceLine [])).codeQualifier = "HC".toList ∧
    (sv1Line ["SV1".toList, "HC:99213:X".toList] (mkServiceLine [])).procedureCode = "99213".toList :=
  sv1_colon_spec.1 ["SV1".toList, "HC:99213:X".toList] (mkServiceLine [])
    "HC".toList "99213".toList "X".toList (by decide) (by decide) (by decide)

/-!
## C6: the pay-to default is a shallow copy
-/

/-- A concrete heap for the copy analysis: the billing provider at
reference 0 with its address object at index 0, and an unnamed pay-to
provider at reference 1. -/
def c6heap : ObjHeap :=
  { parties := [{ name := some "BILLING".toList, taxId := some "12".toList, addrRef := some 0 }, {}],
    addrs := [{ street := some "1 MAIN".toList, city := some "SPRINGFIELD".toList,
                state := some "IL".toList, zip := some "62701".toList }] }

/-- C6 counterexample.  After the pay-to default, mutating the nested
address object of the billing provider changes what the pay-to record
reads through its own reference: the shallow dict copy shares the
nested address, so the stated by-value independence fails. -/
theorem pay_to_copy_counterexample :
    readAddr (finalizePayToObj c6heap 0 1).1 (finalizePayToObj c6heap 0 1).2 =
      readAddr (finalizePayToObj c6heap 0 1).1 0 ∧
    readAddr (setAddrCity (finalizePayToObj c6heap 0 1).1 0 "NEW".toList)
        (finalizePayToObj c6heap 0 1).2 ≠
      readAddr (finalizePayToObj c6heap 0 1).1 (finalizePayToObj c6heap 0 1).2 ∧
    readAddr (setAddrCity (finalizePayToObj c6heap 0 1).1 0 "NEW".toList)
        (finalizePayToObj c6heap 0 1).2 =
      readAddr (setAddrCity (finalizePayToObj c6heap 0 1).1 0 "NEW".toList) 0 := by
  refine ⟨rfl, ?_, rfl⟩
  decide

/-- C6 amended.  When the pay-to provider was never named, the
finalized pay-to record is structurally equal to the billing record
(same fields, same address content); the copy is shallow: the new
top-level object is independent (renaming the billing provider does
not change it), but the nested address reference is shared, so a
mutation of the shared address object is observed identically through
both records. -/
theorem pay_to_copy_spec :
    ∀ (h : ObjHeap) (bRef pRef : Nat),
      bRef < h.parties.length →
      (getParty h pRef).name.getD [] = [] →
      getParty (finalizePayToObj h bRef pRef).1 (finalizePayToObj h bRef pRef).2 =
          getParty (finalizePayToObj h bRef pRef).1 bRef ∧
      readAddr (finalizePayToObj h bRef pRef).1 (finalizePayToObj h bRef pRef).2 =
          readAddr (finalizePayToObj h bRef pRef).1 bRef ∧
      (∀ v, getParty (setPartyName (finalizePayToObj h bRef pRef).1 bRef v)
          (finalizePayToObj h bRef pRef).2 =
        getParty (finalizePayToObj h bRef pRef).1 (finalizePayToObj h bRef pRef).2) ∧
      (getParty (finalizePayToObj h bRef pRef).1 (finalizePayToObj h bRef pRef).2).addrRef =
          (getParty (finalizePayToObj h bRef pRef).1 bRef).addrRef ∧
      (∀ i v, readAddr (setAddrCity (finalizePayToObj h bRef pRef).1 i v)
            (finalizePayToObj h bRef pRef).2 =
          readAddr (setAddrCity (finalizePayToObj h bRef pRef).1 i v) bRef) := by
  intro h bRef pRef hb hname
  have hfin : finalizePayToObj h bRef pRef =
      ({ h with parties := h.parties ++ [getParty h bRef] }, h.parties.length) := by
    simp only [finalizePayToObj, if_pos hname, pyCopyParty]
  have hnew : getParty (finalizePayToObj h bRef pRef).1 (finalizePayToObj h bRef pRef).2 =
      getParty h bRef := by
    rw [hfin]
    show (h.parties ++ [getParty h bRef]).getD h.parties.length {} = _
    rw [List.getD_eq_getElem?_getD, List.getElem?_append_right (le_refl _)]
    simp
  have hold : getParty (finalizePayToObj h bRef pRef).1 bRef = getParty h bRef := by
    rw [hfin]
    show (h.parties ++ [getParty h bRef]).getD bRef {} = _
    rw [List.getD_eq_getElem?_getD, List.getElem?_append, if_pos hb]
    show h.parties[bRef]?.getD {} = h.parties.getD bRef {}
    exact (List.getD_eq_getElem?_getD _ _ _).symm
  refine ⟨by simp only [hnew, hold], ?_, ?_, by simp only [hnew, hold], ?_⟩
  · show (getParty _ _).addrRef.bind _ = (getParty _ _).addrRef.bind _
    simp only [hnew, hold]
  · intro v
    have hne : bRef ≠ (finalizePayToObj h bRef pRef).2 := by
      rw [hfin]
      exact Nat.ne_of_lt hb
    show getParty _ _ = _
    unfold getParty setPartyName
    rw [List.getD_eq_getElem?_getD, List.getElem?_set_ne hne, ← List.getD_eq_getElem?_getD]
  · intro i v
    have haddr : ∀ r, getParty (setAddrCity (finalizePayToObj h bRef pRef).1 i v) r =
        getParty (finalizePayToObj h bRef pRef).1 r := by
      intro r
      rfl
    show (getParty _ _).addrRef.bind _ = (getParty _ _).addrRef.bind _
    simp only [haddr, hnew, hold]

/-- C6 amended, witness at the concrete heap. -/
theorem pay_to_copy_spec_witness :
    getParty (finalizePayToObj c6heap 0 1).1 (finalizePayToObj c6heap 0 1).2 =
      getParty (finalizePayToObj c6heap 0 1).1 0 :=
  (pay_to_copy_spec c6heap 0 1 (by decide) (by decide)).1

/-!
## Branch equations of the loop, for rewriting
-/

lemma stepSeg_ISA (s : PState) (elements : List PyStr) :
    stepSeg s ("ISA".toList, elements) =
      { s with
        submitter := { s.submitter with name := some (clean_value (el elements 6)) }
        receiver := { s.receiver with
          name := some (clean_value (el elements 8))
          id := some (clean_value (el elements 8)) } } := rfl

lemma stepSeg_ST (s : PState) (elements : List PyStr) :
    stepSeg s ("ST".toList, elements) =
      { s with transaction := { s.transaction with
          type := some (clean_value (el elements 1))
          controlNumber := some (clean_value (el elements 2))
          version := some (clean_value (el elements 3)) } } := rfl

lemma stepSeg_BHT (s : PState) (elements : List PyStr) :
    stepSeg s ("BHT".toList, elements) =
      { s with transaction := { s.transaction with
          purpose := some (clean_value (el elements 1))
          referenceId := some (clean_value (el elements 3))
          date := some (parse_date (clean_value (el elements 4)))
          time := some (parse_time (clean_value (el elements 5))) } } := rfl

lemma stepSeg_NM1 (s : PState) (elements : List PyStr) :
    stepSeg s ("NM1".toList, elements) = stepNM1 s elements := rfl

lemma stepSeg_N3 (s : PState) (elements : List PyStr) :
    stepSeg s ("N3".toList, elements) =
      { s with tempAddresses := updateTemp s.tempAddresses s.currentEntity (some { street := some (clean_value (el elements 1)) }) } := rfl

lemma stepSeg_N4 (s : PState) (elements : List PyStr) :
    stepSeg s ("N4".toList, elements) = stepN4 s elements := rfl

lemma stepSeg_PER (s : PState) (elements : List PyStr) :
    stepSeg s ("PER".toList, elements) =
      if s.currentEntity = some Entity.submitter then
        { s with submitter := { s.submitter with contact := some { name := clean_value (el elements 2), phone := clean_value (el elements 4), extension := clean_value (el elements 6) } } }
      else s := rfl

lemma stepSeg_SBR (s : PState) (elements : List PyStr) :
    stepSeg s ("SBR".toList, elements) =
      { s with subscriber := { s.subscriber with
          relationship := some (
            let r := clean_value (el elements 2)
            if r = [] then "self".toList else r)
          groupNumber := some (clean_value (el elements 3))
          planType := some (clean_value (el elements 5)) } } := rfl

lemma stepSeg_DMG (s : PState) (elements : List PyStr) :
    stepSeg s ("DMG".toList, elements) =
      if s.currentEntity = some Entity.subscriber then
        { s with subscriber := { s.subscriber with
            dob := some (parse_date (clean_value (el elements 2)))
            sex := some (clean_value (el elements 3)) } }
      else s := rfl

lemma stepSeg_CLM (s : PState) (elements : List PyStr) :
    stepSeg s ("CLM".toList, elements) =
      { (match s.currentClaim with
         | some c => { s with claimsData := s.claimsData ++ [c] }
         | none => s) with currentClaim := some (mkClaim elements) } := rfl

lemma stepSeg_HI (s : PState) (elements : List PyStr) :
    stepSeg s ("HI".toList, elements) =
      (match s.currentClaim with
       | some c => { s with currentClaim := some (hiApply c elements) }
       | none => s) := rfl

lemma stepSeg_DTP (s : PState) (elements : List PyStr) :
    stepSeg s ("DTP".toList, elements) = stepDTP s elements := rfl

lemma stepSeg_REF (s : PState) (elements : List PyStr) :
    stepSeg s ("REF".toList, elements) =
      (match s.currentClaim with
       | some c =>
         if clean_value (el elements 1) = "D9".toList then
           { s with currentClaim := some { c with clearinghouseClaimNumber := clean_value (el elements 2) } }
         else s
       | none => s) := rfl

lemma stepSeg_LX (s : PState) (elements : List PyStr) :
    stepSeg s ("LX".toList, elements) =
      (match s.currentClaim with
       | some c =>
         { s with currentClaim := some { c with serviceLines := c.serviceLines ++ [mkServiceLine elements] } }
       | none => s) := rfl

lemma stepSeg_other (s : PState) (seg : Seg)
    (h1 : ¬ seg.1 = "ISA".toList) (h2 : ¬ seg.1 = "ST".toList)
    (h3 : ¬ seg.1 = "BHT".toList) (h4 : ¬ seg.1 = "NM1".toList)
    (h5 : ¬ seg.1 = "N3".toList) (h6 : ¬ seg.1 = "N4".toList)
    (h7 : ¬ seg.1 = "PER".toList) (h8 : ¬ seg.1 = "SBR".toList)
    (h9 : ¬ seg.1 = "DMG".toList) (h10 : ¬ seg.1 = "CLM".toList)
    (h11 : ¬ seg.1 = "HI".toList) (h12 : ¬ seg.1 = "DTP".toList)
    (h13 : ¬ seg.1 = "REF".toList) (h14 : ¬ seg.1 = "LX".toList)
    (h15 : ¬ seg.1 = "SV1".toList) :
    stepSeg s seg = s := by
  obtain ⟨sid, elements⟩ := seg
  simp only [stepSeg]
  rw [if_neg h1, if_neg h2, if_neg h3, if_neg h4, if_neg h5, if_neg h6, if_neg h7,
    if_neg h8, if_neg h9, if_neg h10, if_neg h11, if_neg h12, if_neg h13,
    if_neg h14, if_neg h15]

lemma lineStep_other (lines : List ServiceLine) (seg : Seg)
    (hd : ¬ seg.1 = "DTP".toList) (hl : ¬ seg.1 = "LX".toList)
    (hs : ¬ seg.1 = "SV1".toList) :
    lineStep lines seg = lines := by
  obtain ⟨sid, elements⟩ := seg
  simp only [lineStep]
  rw [if_neg hd, if_neg hl, if_neg hs]

/-!
## Handler effects on the open claim
-/

lemma stepNM1_claimsData (s : PState) (elements : List PyStr) :
    (stepNM1 s elements).claimsData = s.claimsData := by
  unfold stepNM1
  dsimp only
  split_ifs <;> cases s.currentClaim <;> rfl

lemma stepNM1_none_iff (s : PState) (elements : List PyStr) :
    ((stepNM1 s elements).currentClaim = none ↔ s.currentClaim = none) := by
  unfold stepNM1
  dsimp only
  split_ifs <;>
    (cases s.currentClaim with
     | none => exact Iff.rfl
     | some c0 => exact ⟨fun h => Option.noConfusion h, fun h => Option.noConfusion h⟩)

lemma stepNM1_some (s : PState) (elements : List PyStr) (c : ClaimRec)
    (hc : s.currentClaim = some c) :
    ∃ c2, (stepNM1 s elements).currentClaim = some c2 ∧ c2.id = c.id ∧
      c2.serviceLines = c.serviceLines := by
  unfold stepNM1
  dsimp only
  rw [hc]
  split_ifs <;> first
    | exact ⟨_, rfl, rfl, rfl⟩
    | exact ⟨c, hc, rfl, rfl⟩

lemma hiStep_proj (c : ClaimRec) (iv : Nat × PyStr) :
    (hiStep c iv).id = c.id ∧ (hiStep c iv).serviceLines = c.serviceLines ∧
      (hiStep c iv).serviceFacility = c.serviceFacility := by
  unfold hiStep
  dsimp only
  split_ifs <;> exact ⟨rfl, rfl, rfl⟩

lemma hiFold_proj : ∀ (l : List (Nat × PyStr)) (c : ClaimRec),
    (l.foldl hiStep c).id = c.id ∧ (l.foldl hiStep c).serviceLines = c.serviceLines ∧
      (l.foldl hiStep c).serviceFacility = c.serviceFacility := by
  intro l
  induction l with
  | nil => intro c; exact ⟨rfl, rfl, rfl⟩
  | cons x xs ih =>
    intro c
    obtain ⟨h1, h2, h3⟩ := ih (hiStep c x)
    obtain ⟨g1, g2, g3⟩ := hiStep_proj c x
    exact ⟨by rw [List.foldl_cons, h1, g1], by rw [List.foldl_cons, h2, g2],
      by rw [List.foldl_cons, h3, g3]⟩

lemma hiApply_proj (c : ClaimRec) (elements : List PyStr) :
    (hiApply c elements).id = c.id ∧ (hiApply c elements).serviceLines = c.serviceLines ∧
      (hiApply c elements).serviceFacility = c.serviceFacility :=
  hiFold_proj _ c

lemma stepN4_claimsData (s : PState) (elements : List PyStr) :
    (stepN4 s elements).claimsData = s.claimsData := by
  unfold stepN4
  dsimp only
  cases s.tempAddresses s.currentEntity with
  | none => rfl
  | some buf =>
    split_ifs <;>
      (cases s.currentClaim with
       | none => rfl
       | some c0 =>
         try dsimp only
         try rfl
         try (cases c0.serviceFacility <;> rfl))

lemma stepN4_none_iff (s : PState) (elements : List PyStr) :
    ((stepN4 s elements).currentClaim = none ↔ s.currentClaim = none) := by
  unfold stepN4
  dsimp only
  cases s.tempAddresses s.currentEntity with
  | none => exact Iff.rfl
  | some buf =>
    split_ifs <;>
      (cases s.currentClaim with
       | none => exact Iff.rfl
       | some c0 =>
         try dsimp only
         try exact ⟨fun h => Option.noConfusion h, fun h => Option.noConfusion h⟩
         try (cases c0.serviceFacility <;>
           exact ⟨fun h => Option.noConfusion h, fun h => Option.noConfusion h⟩))

lemma stepN4_some (s : PState) (elements : List PyStr) (c : ClaimRec)
    (hc : s.currentClaim = some c) :
    ∃ c2, (stepN4 s elements).currentClaim = some c2 ∧ c2.id = c.id ∧
      c2.serviceLines = c.serviceLines := by
  unfold stepN4
  dsimp only
  rw [hc]
  cases s.tempAddresses s.currentEntity with
  | none => exact ⟨c, hc, rfl, rfl⟩
  | some buf =>
    split_ifs <;> first
      | exact ⟨_, rfl, rfl, rfl⟩
      | exact ⟨c, hc, rfl, rfl⟩
      | (try dsimp only
         cases c.serviceFacility <;> exact ⟨_, rfl, rfl, rfl⟩)

lemma stepDTP_claimsData (s : PState) (elements : List PyStr) :
    (stepDTP s elements).claimsData = s.claimsData := by
  unfold stepDTP
  dsimp only
  split_ifs <;>
    (cases s.currentClaim with
     | none => rfl
     | some c0 =>
       first
       | rfl
       | (dsimp only
          split_ifs <;> rfl))

lemma stepDTP_none_iff (s : PState) (elements : List PyStr) :
    ((stepDTP s elements).currentClaim = none ↔ s.currentClaim = none) := by
  unfold stepDTP
  dsimp only
  split_ifs <;>
    (cases hc : s.currentClaim with
     | none =>
       first
       | exact Iff.rfl
       | exact ⟨fun _ => rfl, fun _ => hc⟩
     | some c0 =>
       try dsimp only
       try split_ifs
       all_goals constructor
       all_goals intro h
       all_goals
         first
         | exact h.elim
         | exact Option.noConfusion h
         | (rw [hc] at h; exact Option.noConfusion h))

lemma stepDTP_some (s : PState) (elements : List PyStr) (c : ClaimRec)
    (hc : s.currentClaim = some c) :
    ∃ c2, (stepDTP s elements).currentClaim = some c2 ∧ c2.id = c.id ∧
      c2.serviceLines = lineStep c.serviceLines ("DTP".toList, elements) := by
  have hline : ∀ lines : List ServiceLine, lineStep lines ("DTP".toList, elements) =
      if clean_value (el elements 1) = "472".toList && !(lines = []) then
        modifyLast (fun svc => { svc with serviceDate := parse_date (clean_value (el elements 3)) }) lines
      else lines := fun lines => rfl
  unfold stepDTP
  dsimp only
  rw [hc]
  split_ifs with h1 h2
  · dsimp only
    split_ifs with h3
    · exact ⟨c, hc, rfl, by rw [hline, if_neg (by simp [h3])]⟩
    · exact ⟨_, rfl, rfl, by rw [hline, if_pos (by simp [h1, h3])]⟩
  · have h1b : ¬ clean_value (el elements 1) = ['4', '7', '2'] := by simpa using h1
    exact ⟨_, rfl, rfl, by rw [hline, if_neg (by simp [h1b])]⟩
  · have h1b : ¬ clean_value (el elements 1) = ['4', '7', '2'] := by simpa using h1
    exact ⟨c, hc, rfl, by rw [hline, if_neg (by simp [h1b])]⟩

/-- The effect of any segment other than a claim header: the committed
claim list is unchanged, openness of the current claim is unchanged,
and an open claim keeps its id while its service lines evolve exactly
by the service line projection lineStep. -/
lemma stepSeg_not_CLM (s : PState) (seg : Seg) (h : ¬ seg.1 = "CLM".toList) :
    (stepSeg s seg).claimsData = s.claimsData ∧
    ((stepSeg s seg).currentClaim = none ↔ s.currentClaim = none) ∧
    (∀ c, s.currentClaim = some c →
      ∃ c2, (stepSeg s seg).currentClaim = some c2 ∧ c2.id = c.id ∧
        c2.serviceLines = lineStep c.serviceLines seg) := by
  obtain ⟨sid, elements⟩ := seg
  by_cases h1 : sid = "ISA".toList
  · subst h1
    exact ⟨rfl, Iff.rfl, fun c hc => ⟨c, hc, rfl, rfl⟩⟩
  by_cases h2 : sid = "ST".toList
  · subst h2
    exact ⟨rfl, Iff.rfl, fun c hc => ⟨c, hc, rfl, rfl⟩⟩
  by_cases h3 : sid = "BHT".toList
  · subst h3
    exact ⟨rfl, Iff.rfl, fun c hc => ⟨c, hc, rfl, rfl⟩⟩
  by_cases h4 : sid = "NM1".toList
  · subst h4
    exact ⟨stepNM1_claimsData s elements, stepNM1_none_iff s elements,
      fun c hc => stepNM1_some s elements c hc⟩
  by_cases h5 : sid = "N3".toList
  · subst h5
    exact ⟨rfl, Iff.rfl, fun c hc => ⟨c, hc, rfl, rfl⟩⟩
  by_cases h6 : sid = "N4".toList
  · subst h6
    exact ⟨stepN4_claimsData s elements, stepN4_none_iff s elements,
      fun c hc => stepN4_some s elements c hc⟩
  by_cases h7 : sid = "PER".toList
  · subst h7
    rw [show ((("PER".toList, elements) : Seg)).1 = "PER".toList from rfl] at h
    rw [stepSeg_PER]
    split_ifs
    · exact ⟨rfl, Iff.rfl, fun c hc => ⟨c, hc, rfl, rfl⟩⟩
    · exact ⟨rfl, Iff.rfl, fun c hc => ⟨c, hc, rfl, rfl⟩⟩
  by_cases h8 : sid = "SBR".toList
  · subst h8
    exact ⟨rfl, Iff.rfl, fun c hc => ⟨c, hc, rfl, rfl⟩⟩
  by_cases h9 : sid = "DMG".toList
  · subst h9
    rw [stepSeg_DMG]
    split_ifs
    · exact ⟨rfl, Iff.rfl, fun c hc => ⟨c, hc, rfl, rfl⟩⟩
    · exact ⟨rfl, Iff.rfl, fun c hc => ⟨c, hc, rfl, rfl⟩⟩
  by_cases h11 : sid = "HI".toList
  · subst h11
    rw [stepSeg_HI]
    cases hc : s.currentClaim with
    | none =>
      exact ⟨rfl, ⟨fun _ => rfl, fun _ => hc⟩, fun c hcc => Option.noConfusion hcc⟩
    | some c0 =>
      refine ⟨rfl, ⟨fun hh => by first | exact hh.elim | exact Option.noConfusion hh, fun hh => by first | exact hh.elim | exact Option.noConfusion hh⟩, ?_⟩
      intro c hcc
      obtain rfl := Option.some.inj hcc
      obtain ⟨p1, p2, _⟩ := hiApply_proj c0 elements
      exact ⟨hiApply c0 elements, rfl, p1, p2⟩
  by_cases h12 : sid = "DTP".toList
  · subst h12
    exact ⟨stepDTP_claimsData s elements, stepDTP_none_iff s elements,
      fun c hc => stepDTP_some s elements c hc⟩
  by_cases h13 : sid = "REF".toList
  · subst h13
    rw [stepSeg_REF]
    cases hc : s.currentClaim with
    | none =>
      exact ⟨rfl, ⟨fun _ => rfl, fun _ => hc⟩, fun c hcc => Option.noConfusion hcc⟩
    | some c0 =>
      dsimp only
      split_ifs
      · refine ⟨rfl, ⟨fun hh => by first | exact hh.elim | exact Option.noConfusion hh, fun hh => by first | exact hh.elim | exact Option.noConfusion hh⟩, ?_⟩
        intro c hcc
        obtain rfl := Option.some.inj hcc
        exact ⟨_, rfl, rfl, rfl⟩
      · refine ⟨rfl,
          ⟨fun hh => by first | exact hh.elim | exact Option.noConfusion hh | (rw [hc] at hh; exact Option.noConfusion hh), fun hh => by first | exact hh.elim | exact Option.noConfusion hh⟩, ?_⟩
        intro c hcc
        obtain rfl := Option.some.inj hcc
        exact ⟨c0, hc, rfl, rfl⟩
  by_cases h14 : sid = "LX".toList
  · subst h14
    rw [stepSeg_LX]
    cases hc : s.currentClaim with
    | none =>
      exact ⟨rfl, ⟨fun _ => rfl, fun _ => hc⟩, fun c hcc => Option.noConfusion hcc⟩
    | some c0 =>
      refine ⟨rfl, ⟨fun hh => by first | exact hh.elim | exact Option.noConfusion hh, fun hh => by first | exact hh.elim | exact Option.noConfusion hh⟩, ?_⟩
      intro c hcc
      obtain rfl := Option.some.inj hcc
      exact ⟨_, rfl, rfl, rfl⟩
  by_cases h15 : sid = "SV1".toList
  · subst h15
    rw [stepSeg_SV1]
    cases hc : s.currentClaim with
    | none =>
      exact ⟨rfl, ⟨fun _ => rfl, fun _ => hc⟩, fun c hcc => Option.noConfusion hcc⟩
    | some c0 =>
      dsimp only
      split_ifs with hl hpos
      · refine ⟨rfl,
          ⟨fun hh => by first | exact hh.elim | exact Option.noConfusion hh | (rw [hc] at hh; exact Option.noConfusion hh), fun hh => by first | exact hh.elim | exact Option.noConfusion hh⟩, ?_⟩
        intro c hcc
        obtain rfl := Option.some.inj hcc
        refine ⟨c0, hc, rfl, ?_⟩
        have h0 : lineStep c0.serviceLines ("SV1".toList, elements) =
            if c0.serviceLines = [] then c0.serviceLines
            else modifyLast (sv1Line elements) c0.serviceLines := rfl
        rw [h0, if_pos hl]
      · refine ⟨rfl, ⟨fun hh => by first | exact hh.elim | exact Option.noConfusion hh, fun hh => by first | exact hh.elim | exact Option.noConfusion hh⟩, ?_⟩
        intro c hcc
        obtain rfl := Option.some.inj hcc
        refine ⟨_, rfl, rfl, ?_⟩
        have h0 : lineStep c0.serviceLines ("SV1".toList, elements) =
            if c0.serviceLines = [] then c0.serviceLines
            else modifyLast (sv1Line elements) c0.serviceLines := rfl
        rw [h0, if_neg hl]
      · refine ⟨rfl, ⟨fun hh => by first | exact hh.elim | exact Option.noConfusion hh, fun hh => by first | exact hh.elim | exact Option.noConfusion hh⟩, ?_⟩
        intro c hcc
        obtain rfl := Option.some.inj hcc
        refine ⟨_, rfl, rfl, ?_⟩
        have h0 : lineStep c0.serviceLines ("SV1".toList, elements) =
            if c0.serviceLines = [] then c0.serviceLines
            else modifyLast (sv1Line elements) c0.serviceLines := rfl
        rw [h0, if_neg hl]
  · have hcl : ¬ sid = "CLM".toList := h
    have hstep := stepSeg_other s (sid, elements) h1 h2 h3 h4 h5 h6 h7 h8 h9 hcl h11 h12 h13 h14 h15
    have hls : lineStep = lineStep := rfl
    rw [hstep]
    refine ⟨rfl, Iff.rfl, ?_⟩
    intro c hc
    refine ⟨c, hc, rfl, ?_⟩
    exact (lineStep_other c.serviceLines (sid, elements) h12 h14 h15).symm

/-- Folding a claim-header-free run of segments: committed claims are
untouched, openness is preserved, and the open claim evolves its
service lines by the window projection. -/
lemma foldl_not_CLM : ∀ (segs : List Seg) (s : PState),
    (∀ seg ∈ segs, ¬ seg.1 = "CLM".toList) →
    ((segs.foldl stepSeg s).claimsData = s.claimsData ∧
    ((segs.foldl stepSeg s).currentClaim = none ↔ s.currentClaim = none) ∧
    (∀ c, s.currentClaim = some c →
      ∃ c2, (segs.foldl stepSeg s).currentClaim = some c2 ∧ c2.id = c.id ∧
        c2.serviceLines = segs.foldl lineStep c.serviceLines)) := by
  intro segs
  induction segs with
  | nil =>
    intro s _
    exact ⟨rfl, Iff.rfl, fun c hc => ⟨c, hc, rfl, rfl⟩⟩
  | cons g gs ih =>
    intro s hseg
    have hg : ¬ g.1 = "CLM".toList := hseg g (List.mem_cons_self g gs)
    have hgs : ∀ seg ∈ gs, ¬ seg.1 = "CLM".toList :=
      fun seg m => hseg seg (List.mem_cons_of_mem _ m)
    obtain ⟨hA, hB, hC⟩ := stepSeg_not_CLM s g hg
    obtain ⟨iA, iB, iC⟩ := ih (stepSeg s g) hgs
    rw [List.foldl_cons]
    refine ⟨by rw [iA, hA], iB.trans hB, ?_⟩
    intro c hc
    obtain ⟨c1, hc1, hid1, hl1⟩ := hC c hc
    obtain ⟨c2, hc2, hid2, hl2⟩ := iC c1 hc1
    refine ⟨c2, hc2, by rw [hid2, hid1], ?_⟩
    rw [hl2, hl1, List.foldl_cons]

/-- The claim-header step commits the open claim, if any, and opens a
fresh claim built from the segment elements. -/
lemma stepSeg_CLM_effect (s : PState) (elements : List PyStr) :
    (stepSeg s ("CLM".toList, elements)).claimsData =
        s.claimsData ++ s.currentClaim.toList ∧
    (stepSeg s ("CLM".toList, elements)).currentClaim = some (mkClaim elements) := by
  rw [stepSeg_CLM]
  cases s.currentClaim <;> simp

/-!
## C1: exactly two committed claims, each owning its own window
-/

/-- C1.  For a stream with exactly two claim-header segments, the
assembler commits exactly two claims, in stream order (their ids come
from the first and the second header respectively), and each claim's
service lines are exactly the lines built by the LX, SV1 and DTP
segments of its own window: the segments between its header and the
next header, or the end of the stream.  In particular no service line
of the second window reaches the first, already committed, claim. -/
theorem two_claims_window_spec :
    ∀ (A B C : List Seg) (g1 g2 : Seg),
      isCLM g1 = true → isCLM g2 = true →
      (∀ seg ∈ A, isCLM seg = false) → (∀ seg ∈ B, isCLM seg = false) →
      (∀ seg ∈ C, isCLM seg = false) →
      ∃ c1 c2, finalClaims (runSegs (A ++ g1 :: B ++ g2 :: C)) = [c1, c2] ∧
        c1.id = clean_value (el g1.2 1) ∧ c2.id = clean_value (el g2.2 1) ∧
        c1.serviceLines = windowLines B ∧ c2.serviceLines = windowLines C := by
  intro A B C g1 g2 hg1 hg2 hA hB hC
  have hnA : ∀ seg ∈ A, ¬ seg.1 = "CLM".toList := fun seg m => by
    have h := hA seg m
    simp [isCLM] at h
    exact h
  have hnB : ∀ seg ∈ B, ¬ seg.1 = "CLM".toList := fun seg m => by
    have h := hB seg m
    simp [isCLM] at h
    exact h
  have hnC : ∀ seg ∈ C, ¬ seg.1 = "CLM".toList := fun seg m => by
    have h := hC seg m
    simp [isCLM] at h
    exact h
  have hg1eq : g1 = (("CLM".toList : PyStr), g1.2) := by
    have h := hg1
    simp [isCLM] at h
    exact Prod.ext h rfl
  have hg2eq : g2 = (("CLM".toList : PyStr), g2.2) := by
    have h := hg2
    simp [isCLM] at h
    exact Prod.ext h rfl
  obtain ⟨hA1, hA2, _⟩ := foldl_not_CLM A initState hnA
  have hA2n : (A.foldl stepSeg initState).currentClaim = none := hA2.mpr rfl
  have e1 : stepSeg (A.foldl stepSeg initState) g1 =
      stepSeg (A.foldl stepSeg initState) ("CLM".toList, g1.2) := by rw [← hg1eq]
  obtain ⟨hS1a, hS1b⟩ := stepSeg_CLM_effect (A.foldl stepSeg initState) g1.2
  have hs1cd : (stepSeg (A.foldl stepSeg initState) g1).claimsData = [] := by
    rw [e1, hS1a, hA1, hA2n]
    rfl
  have hs1cc : (stepSeg (A.foldl stepSeg initState) g1).currentClaim =
      some (mkClaim g1.2) := by rw [e1, hS1b]
  obtain ⟨hB1, _, hB3⟩ := foldl_not_CLM B (stepSeg (A.foldl stepSeg initState) g1) hnB
  obtain ⟨cB, hcB, hcBid, hcBlines⟩ := hB3 (mkClaim g1.2) hs1cc
  have hsBcd : (B.foldl stepSeg (stepSeg (A.foldl stepSeg initState) g1)).claimsData = [] := by
    rw [hB1, hs1cd]
  have e2 : stepSeg (B.foldl stepSeg (stepSeg (A.foldl stepSeg initState) g1)) g2 =
      stepSeg (B.foldl stepSeg (stepSeg (A.foldl stepSeg initState) g1)) ("CLM".toList, g2.2) := by
    rw [← hg2eq]
  obtain ⟨hS2a, hS2b⟩ :=
    stepSeg_CLM_effect (B.foldl stepSeg (stepSeg (A.foldl stepSeg initState) g1)) g2.2
  have hs2cd : (stepSeg (B.foldl stepSeg (stepSeg (A.foldl stepSeg initState) g1)) g2).claimsData
      = [cB] := by
    rw [e2, hS2a, hsBcd, hcB]
    rfl
  have hs2cc : (stepSeg (B.foldl stepSeg (stepSeg (A.foldl stepSeg initState) g1)) g2).currentClaim
      = some (mkClaim g2.2) := by rw [e2, hS2b]
  obtain ⟨hC1, _, hC3⟩ :=
    foldl_not_CLM C (stepSeg (B.foldl stepSeg (stepSeg (A.foldl stepSeg initState) g1)) g2) hnC
  obtain ⟨cC, hcC, hcCid, hcClines⟩ := hC3 (mkClaim g2.2) hs2cc
  have hrun : runSegs (A ++ g1 :: B ++ g2 :: C) =
      C.foldl stepSeg
        (stepSeg (B.foldl stepSeg (stepSeg (A.foldl stepSeg initState) g1)) g2) := by
    simp [runSegs, List.foldl_append]
  refine ⟨cB, cC, ?_, ?_, ?_, ?_, ?_⟩
  · rw [hrun]
    unfold finalClaims
    rw [hC1, hs2cd, hcC]
    rfl
  · exact hcBid
  · exact hcCid
  · exact hcBlines
  · exact hcClines

/-!
## Tracking the transaction type and claim presence, toward C2
-/

lemma stepNM1_tx (s : PState) (elements : List PyStr) :
    (stepNM1 s elements).transaction = s.transaction := by
  unfold stepNM1
  dsimp only
  split_ifs <;> cases s.currentClaim <;> rfl

lemma stepN4_tx (s : PState) (elements : List PyStr) :
    (stepN4 s elements).transaction = s.transaction := by
  unfold stepN4
  dsimp only
  cases s.tempAddresses s.currentEntity with
  | none => rfl
  | some buf =>
    split_ifs <;>
      (cases s.currentClaim with
       | none => rfl
       | some c0 =>
         first
         | rfl
         | (dsimp only
            cases c0.serviceFacility <;> rfl))

lemma stepDTP_tx (s : PState) (elements : List PyStr) :
    (stepDTP s elements).transaction = s.transaction := by
  unfold stepDTP
  dsimp only
  split_ifs <;>
    (cases s.currentClaim with
     | none => rfl
     | some c0 =>
       first
       | rfl
       | (dsimp only
          split_ifs <;> rfl))

/-- Only the transaction set header writes the transaction type. -/
lemma stepSeg_tx_type (s : PState) (seg : Seg) :
    (stepSeg s seg).transaction.type =
      if seg.1 = "ST".toList then some (clean_value (el seg.2 1))
      else s.transaction.type := by
  obtain ⟨sid, elements⟩ := seg
  by_cases h2 : sid = "ST".toList
  · subst h2
    rw [if_pos rfl]
    rfl
  rw [if_neg h2]
  by_cases h1 : sid = "ISA".toList
  · subst h1; rfl
  by_cases h3 : sid = "BHT".toList
  · subst h3; rfl
  by_cases h4 : sid = "NM1".toList
  · subst h4
    show (stepNM1 s elements).transaction.type = s.transaction.type
    rw [stepNM1_tx]
  by_cases h5 : sid = "N3".toList
  · subst h5; rfl
  by_cases h6 : sid = "N4".toList
  · subst h6
    show (stepN4 s elements).transaction.type = s.transaction.type
    rw [stepN4_tx]
  by_cases h7 : sid = "PER".toList
  · subst h7
    rw [stepSeg_PER]
    split_ifs <;> rfl
  by_cases h8 : sid = "SBR".toList
  · subst h8; rfl
  by_cases h9 : sid = "DMG".toList
  · subst h9
    rw [stepSeg_DMG]
    split_ifs <;> rfl
  by_cases h10 : sid = "CLM".toList
  · subst h10
    rw [stepSeg_CLM]
    cases s.currentClaim <;> rfl
  by_cases h11 : sid = "HI".toList
  · subst h11
    rw [stepSeg_HI]
    cases s.currentClaim <;> rfl
  by_cases h12 : sid = "DTP".toList
  · subst h12
    show (stepDTP s elements).transaction.type = s.transaction.type
    rw [stepDTP_tx]
  by_cases h13 : sid = "REF".toList
  · subst h13
    rw [stepSeg_REF]
    cases s.currentClaim with
    | none => rfl
    | some c0 =>
      dsimp only
      split_ifs <;> rfl
  by_cases h14 : sid = "LX".toList
  · subst h14
    rw [stepSeg_LX]
    cases s.currentClaim <;> rfl
  by_cases h15 : sid = "SV1".toList
  · subst h15
    rw [stepSeg_SV1]
    cases s.currentClaim with
    | none => rfl
    | some c0 =>
      dsimp only
      split_ifs <;> rfl
  · rw [stepSeg_other s (sid, elements) h1 h2 h3 h4 h5 h6 h7 h8 h9 h10 h11 h12 h13 h14 h15]

/-- The transaction type after the loop is determined by the last
transaction set header of the stream: the last write wins. -/
lemma foldl_tx_type : ∀ (segs : List Seg) (s : PState),
    (segs.foldl stepSeg s).transaction.type =
      ((segs.filter (fun seg => seg.1 = "ST".toList)).getLast?).elim
        s.transaction.type (fun seg => some (clean_value (el seg.2 1))) := by
  intro segs
  induction segs with
  | nil => intro s; rfl
  | cons g gs ih =>
    intro s
    rw [List.foldl_cons, ih (stepSeg s g)]
    have hstep := stepSeg_tx_type s g
    by_cases hg : g.1 = "ST".toList
    · rw [if_pos hg] at hstep
      have hfilter : (g :: gs).filter (fun seg => seg.1 = "ST".toList) =
          g :: gs.filter (fun seg => seg.1 = "ST".toList) := by
        simp [List.filter_cons, hg]
      rw [hfilter]
      cases hfl : (gs.filter (fun seg => seg.1 = "ST".toList)).getLast? with
      | none =>
        have hemp : gs.filter (fun seg => seg.1 = "ST".toList) = [] := by
          simpa using hfl
        rw [hemp]
        simp [hstep]
      | some seg0 =>
        have hne : gs.filter (fun seg => seg.1 = "ST".toList) ≠ [] := by
          intro hemp
          rw [hemp] at hfl
          exact Option.noConfusion hfl
        obtain ⟨x, xs, hxe⟩ := List.exists_cons_of_ne_nil hne
        rw [hxe] at hfl
        rw [hxe, List.getLast?_cons_cons, hfl]
        rfl
    · rw [if_neg hg] at hstep
      have hgb : ¬ g.1 = ['S', 'T'] := by simpa using hg
      have hfilter : (g :: gs).filter (fun seg => seg.1 = "ST".toList) =
          gs.filter (fun seg => seg.1 = "ST".toList) := by
        simp [List.filter_cons, hgb]
      rw [hfilter, hstep]

lemma stepSeg_ne_none (s : PState) (seg : Seg) (h : ¬ s.currentClaim = none) :
    ¬ (stepSeg s seg).currentClaim = none := by
  by_cases hclm : seg.1 = "CLM".toList
  · have hseq : seg = (("CLM".toList : PyStr), seg.2) := Prod.ext hclm rfl
    rw [hseq, (stepSeg_CLM_effect s seg.2).2]
    simp
  · exact fun hn => h ((stepSeg_not_CLM s seg hclm).2.1.mp hn)

lemma foldl_ne_none : ∀ (segs : List Seg) (s : PState),
    ¬ s.currentClaim = none → ¬ (segs.foldl stepSeg s).currentClaim = none := by
  intro segs
  induction segs with
  | nil => intro s h; exact h
  | cons g gs ih =>
    intro s h
    rw [List.foldl_cons]
    exact ih (stepSeg s g) (stepSeg_ne_none s g h)

/-- A stream containing a claim header produces at least one claim. -/
lemma finalClaims_ne_nil_of_CLM (segs : List Seg) (seg0 : Seg)
    (hmem : seg0 ∈ segs) (hclm : isCLM seg0 = true) :
    finalClaims (runSegs segs) ≠ [] := by
  obtain ⟨u, v, rfl⟩ := List.append_of_mem hmem
  have h0 : seg0 = (("CLM".toList : PyStr), seg0.2) := by
    have h := hclm
    simp [isCLM] at h
    exact Prod.ext h rfl
  have hrun : runSegs (u ++ seg0 :: v) =
      v.foldl stepSeg (stepSeg (u.foldl stepSeg initState) seg0) := by
    simp [runSegs, List.foldl_append]
  have hsome : ¬ (stepSeg (u.foldl stepSeg initState) seg0).currentClaim = none := by
    rw [h0, (stepSeg_CLM_effect (u.foldl stepSeg initState) seg0.2).2]
    simp
  have hne := foldl_ne_none v _ hsome
  rw [hrun]
  unfold finalClaims
  cases hcc : (v.foldl stepSeg (stepSeg (u.foldl stepSeg initState) seg0)).currentClaim with
  | none => exact absurd hcc hne
  | some c => simp

/-- A stream with no claim header produces no claim. -/
lemma finalClaims_nil_of_no_CLM (segs : List Seg)
    (h : ∀ seg ∈ segs, isCLM seg = false) :
    finalClaims (runSegs segs) = [] := by
  have hn : ∀ seg ∈ segs, ¬ seg.1 = "CLM".toList := fun seg m => by
    have h2 := h seg m
    simp [isCLM] at h2
    exact h2
  obtain ⟨h1, h2, _⟩ := foldl_not_CLM segs initState hn
  unfold finalClaims
  rw [show runSegs segs = segs.foldl stepSeg initState from rfl, h1, h2.mpr rfl]
  rfl

lemma sortedIds_spec (segs : List Seg) :
    (sortedIds segs).Sorted (fun a b => a ≤ b) ∧ (sortedIds segs).Nodup ∧
      (∀ x, x ∈ sortedIds segs ↔ ∃ seg ∈ segs, seg.1 = x) := by
  refine ⟨List.sorted_insertionSort _ _, ?_, ?_⟩
  · exact (List.perm_insertionSort _ _).nodup_iff.mpr (List.nodup_dedup _)
  · intro x
    unfold sortedIds
    rw [(List.perm_insertionSort _ _).mem_iff, List.mem_dedup, List.mem_map]

/-!
## C2: the no-claim failure and its diagnostic payload
-/

/-- C2.  Parsing a tokenized stream fails with the no-claim diagnostic
exactly when the stream contains no claim header segment; the payload
then carries the two detected delimiters, the sorted duplicate-free
list of exactly the distinct segment identifiers seen, and the label
derived from the last transaction set header (or the unknown label
when there is none). -/
theorem no_claim_found_spec :
    ∀ (segs : List Seg) (eleSep segTerm : Char),
      ((∃ d, parseFromSegs segs eleSep segTerm = Except.error d) ↔
        (∀ seg ∈ segs, isCLM seg = false)) ∧
      (∀ d, parseFromSegs segs eleSep segTerm = Except.error d →
        d.eleSep = eleSep ∧ d.segTerm = segTerm ∧
        d.foundIds.Sorted (fun a b => a ≤ b) ∧ d.foundIds.Nodup ∧
        (∀ x, x ∈ d.foundIds ↔ ∃ seg ∈ segs, seg.1 = x) ∧
        d.txLabel = txLabelOf
          (((segs.filter (fun seg => seg.1 = "ST".toList)).getLast?).elim
            ("unknown".toList) (fun seg => clean_value (el seg.2 1)))) := by
  intro segs eleSep segTerm
  have hd : ∀ d, parseFromSegs segs eleSep segTerm = Except.error d →
      finalClaims (runSegs segs) = [] ∧
      d = { foundIds := sortedIds segs
            txLabel := txLabelOf ((runSegs segs).transaction.type.getD "unknown".toList)
            eleSep := eleSep
            segTerm := segTerm } := by
    intro d hpd
    unfold parseFromSegs at hpd
    by_cases hfc : finalClaims (runSegs segs) = []
    · rw [if_pos hfc] at hpd
      exact ⟨hfc, (Except.error.inj hpd).symm⟩
    · rw [if_neg hfc] at hpd
      exact Except.noConfusion hpd
  constructor
  · constructor
    · rintro ⟨d, hpd⟩
      obtain ⟨hfc, _⟩ := hd d hpd
      intro seg m
      by_cases hc : isCLM seg = true
      · exact absurd hfc (finalClaims_ne_nil_of_CLM segs seg m hc)
      · simpa using hc
    · intro hall
      have hfc := finalClaims_nil_of_no_CLM segs hall
      refine ⟨{ foundIds := sortedIds segs
                txLabel := txLabelOf ((runSegs segs).transaction.type.getD "unknown".toList)
                eleSep := eleSep
                segTerm := segTerm }, ?_⟩
      unfold parseFromSegs
      rw [if_pos hfc]
  · intro d hpd
    obtain ⟨hfc, rfl⟩ := hd d hpd
    obtain ⟨hs, hn, hm⟩ := sortedIds_spec segs
    refine ⟨rfl, rfl, hs, hn, hm, ?_⟩
    show txLabelOf ((runSegs segs).transaction.type.getD "unknown".toList) = _
    rw [show (runSegs segs).transaction.type = (segs.foldl stepSeg initState).transaction.type from rfl,
      foldl_tx_type segs initState]
    cases (segs.filter (fun seg => seg.1 = "ST".toList)).getLast? with
    | none => rfl
    | some seg0 => rfl

/-- C2 witness at a concrete remittance stream with no claim header. -/
theorem no_claim_found_spec_witness :
    ∃ d, parseFromSegs [("ST".toList, ["ST".toList, "835".toList]),
      ("BPR".toList, ["BPR".toList])] '*' '~' = Except.error d :=
  ((no_claim_found_spec [("ST".toList, ["ST".toList, "835".toList]),
      ("BPR".toList, ["BPR".toList])] '*' '~').1).mpr (by decide)

/-- C1 witness at a concrete stream with two claim headers and one
service line in the first window. -/
theorem two_claims_window_spec_witness :
    ∃ c1 c2,
      finalClaims (runSegs ([] ++ ("CLM".toList, ["CLM".toList, "A1".toList]) ::
          [("LX".toList, ["LX".toList, "1".toList])] ++
          ("CLM".toList, ["CLM".toList, "A2".toList]) :: [])) = [c1, c2] ∧
      c1.id = clean_value (el ["CLM".toList, "A1".toList] 1) ∧
      c2.id = clean_value (el ["CLM".toList, "A2".toList] 1) ∧
      c1.serviceLines = windowLines [("LX".toList, ["LX".toList, "1".toList])] ∧
      c2.serviceLines = windowLines [] :=
  two_claims_window_spec [] [("LX".toList, ["LX".toList, "1".toList])] []
    ("CLM".toList, ["CLM".toList, "A1".toList]) ("CLM".toList, ["CLM".toList, "A2".toList])
    (by decide) (by decide) (by decide) (by decide) (by decide)

/-!
## C7: the N4 commit
-/

/-- C7 counterexample.  A payer is named with no open claim, its street
is buffered by N3, so a buffer exists for the current entity when the
N4 arrives; yet the N4 commits the completed address into no party and
no claim: every component of the state other than the transient
address map is unchanged. -/
theorem n4_commit_counterexample :
    (runSegs [("NM1".toList, ["NM1".toList, "PR".toList, "2".toList, "ACME INS".toList]),
        ("N3".toList, ["N3".toList, "1 PAYER WAY".toList])]).currentEntity =
      some Entity.payer ∧
    ((runSegs [("NM1".toList, ["NM1".toList, "PR".toList, "2".toList, "ACME INS".toList]),
        ("N3".toList, ["N3".toList, "1 PAYER WAY".toList])]).tempAddresses
      (some Entity.payer)).isSome = true ∧
    (stepN4 (runSegs [("NM1".toList, ["NM1".toList, "PR".toList, "2".toList, "ACME INS".toList]),
        ("N3".toList, ["N3".toList, "1 PAYER WAY".toList])])
      ["N4".toList, "TOWN".toList, "CA".toList, "90210".toList]).payer =
      (runSegs [("NM1".toList, ["NM1".toList, "PR".toList, "2".toList, "ACME INS".toList]),
        ("N3".toList, ["N3".toList, "1 PAYER WAY".toList])]).payer ∧
    (stepN4 (runSegs [("NM1".toList, ["NM1".toList, "PR".toList, "2".toList, "ACME INS".toList]),
        ("N3".toList, ["N3".toList, "1 PAYER WAY".toList])])
      ["N4".toList, "TOWN".toList, "CA".toList, "90210".toList]).billingProvider =
      (runSegs [("NM1".toList, ["NM1".toList, "PR".toList, "2".toList, "ACME INS".toList]),
        ("N3".toList, ["N3".toList, "1 PAYER WAY".toList])]).billingProvider ∧
    (stepN4 (runSegs [("NM1".toList, ["NM1".toList, "PR".toList, "2".toList, "ACME INS".toList]),
        ("N3".toList, ["N3".toList, "1 PAYER WAY".toList])])
      ["N4".toList, "TOWN".toList, "CA".toList, "90210".toList]).payToProvider =
      (runSegs [("NM1".toList, ["NM1".toList, "PR".toList, "2".toList, "ACME INS".toList]),
        ("N3".toList, ["N3".toList, "1 PAYER WAY".toList])]).payToProvider ∧
    (stepN4 (runSegs [("NM1".toList, ["NM1".toList, "PR".toList, "2".toList, "ACME INS".toList]),
        ("N3".toList, ["N3".toList, "1 PAYER WAY".toList])])
      ["N4".toList, "TOWN".toList, "CA".toList, "90210".toList]).subscriber =
      (runSegs [("NM1".toList, ["NM1".toList, "PR".toList, "2".toList, "ACME INS".toList]),
        ("N3".toList, ["N3".toList, "1 PAYER WAY".toList])]).subscriber ∧
    (stepN4 (runSegs [("NM1".toList, ["NM1".toList, "PR".toList, "2".toList, "ACME INS".toList]),
        ("N3".toList, ["N3".toList, "1 PAYER WAY".toList])])
      ["N4".toList, "TOWN".toList, "CA".toList, "90210".toList]).submitter =
      (runSegs [("NM1".toList, ["NM1".toList, "PR".toList, "2".toList, "ACME INS".toList]),
        ("N3".toList, ["N3".toList, "1 PAYER WAY".toList])]).submitter ∧
    (stepN4 (runSegs [("NM1".toList, ["NM1".toList, "PR".toList, "2".toList, "ACME INS".toList]),
        ("N3".toList, ["N3".toList, "1 PAYER WAY".toList])])
      ["N4".toList, "TOWN".toList, "CA".toList, "90210".toList]).receiver =
      (runSegs [("NM1".toList, ["NM1".toList, "PR".toList, "2".toList, "ACME INS".toList]),
        ("N3".toList, ["N3".toList, "1 PAYER WAY".toList])]).receiver ∧
    (stepN4 (runSegs [("NM1".toList, ["NM1".toList, "PR".toList, "2".toList, "ACME INS".toList]),
        ("N3".toList, ["N3".toList, "1 PAYER WAY".toList])])
      ["N4".toList, "TOWN".toList, "CA".toList, "90210".toList]).claimsData =
      (runSegs [("NM1".toList, ["NM1".toList, "PR".toList, "2".toList, "ACME INS".toList]),
        ("N3".toList, ["N3".toList, "1 PAYER WAY".toList])]).claimsData ∧
    (stepN4 (runSegs [("NM1".toList, ["NM1".toList, "PR".toList, "2".toList, "ACME INS".toList]),
        ("N3".toList, ["N3".toList, "1 PAYER WAY".toList])])
      ["N4".toList, "TOWN".toList, "CA".toList, "90210".toList]).currentClaim =
      (runSegs [("NM1".toList, ["NM1".toList, "PR".toList, "2".toList, "ACME INS".toList]),
        ("N3".toList, ["N3".toList, "1 PAYER WAY".toList])]).currentClaim := by
  refine ⟨rfl, rfl, rfl, rfl, rfl, rfl, rfl, rfl, rfl, rfl⟩

/-- C7 amended.  An N4 with no buffered street for the current entity
is ignored; with a buffer, the completed address is stored back into
the transient map and committed into the billing provider, pay-to
provider or subscriber when the current entity is that role, and into
the open claim's service facility when the role is the service
facility and the open claim carries one; for the other recognized
roles (submitter, receiver, payer, rendering provider) and for the
empty context no party and no claim is modified. -/
theorem n4_address_commit_spec (s : PState) (elements : List PyStr) :
    (s.tempAddresses s.currentEntity = none → stepN4 s elements = s) ∧
    ∀ buf, s.tempAddresses s.currentEntity = some buf →
      (stepN4 s elements).tempAddresses =
        updateTemp s.tempAddresses s.currentEntity (some (completeAddr buf elements)) ∧
      (stepN4 s elements).billingProvider =
        (if s.currentEntity = some Entity.billingProvider then
          { s.billingProvider with address := some (completeAddr buf elements) }
         else s.billingProvider) ∧
      (stepN4 s elements).payToProvider =
        (if s.currentEntity = some Entity.payToProvider then
          { s.payToProvider with address := some (completeAddr buf elements) }
         else s.payToProvider) ∧
      (stepN4 s elements).subscriber =
        (if s.currentEntity = some Entity.subscriber then
          { s.subscriber with address := some (completeAddr buf elements) }
         else s.subscriber) ∧
      (stepN4 s elements).currentClaim =
        (if s.currentEntity = some Entity.serviceFacility then
          (match s.currentClaim with
           | some c =>
             (match c.serviceFacility with
              | some f =>
                some { c with serviceFacility := some { f with address := completeAddr buf elements } }
              | none => s.currentClaim)
           | none => s.currentClaim)
         else s.currentClaim) ∧
      (stepN4 s elements).submitter = s.submitter ∧
      (stepN4 s elements).receiver = s.receiver ∧
      (stepN4 s elements).payer = s.payer ∧
      (stepN4 s elements).claimsData = s.claimsData ∧
      (stepN4 s elements).currentEntity = s.currentEntity := by
  constructor
  · intro h
    unfold stepN4
    rw [h]
  · intro buf hbuf
    unfold stepN4
    dsimp only
    cases hce : s.currentEntity with
    | none =>
      rw [hce] at hbuf
      rw [hbuf]
      exact ⟨rfl, rfl, rfl, rfl, rfl, rfl, rfl, rfl, rfl, rfl⟩
    | some e =>
      rw [hce] at hbuf
      rw [hbuf]
      cases e with
      | serviceFacility =>
        cases s.currentClaim with
        | none => exact ⟨rfl, rfl, rfl, rfl, rfl, rfl, rfl, rfl, rfl, rfl⟩
        | some c =>
          dsimp only
          cases c.serviceFacility with
          | none => exact ⟨rfl, rfl, rfl, rfl, rfl, rfl, rfl, rfl, rfl, rfl⟩
          | some f => exact ⟨rfl, rfl, rfl, rfl, rfl, rfl, rfl, rfl, rfl, rfl⟩
      | submitter => exact ⟨rfl, rfl, rfl, rfl, rfl, rfl, rfl, rfl, rfl, rfl⟩
      | receiver => exact ⟨rfl, rfl, rfl, rfl, rfl, rfl, rfl, rfl, rfl, rfl⟩
      | billingProvider => exact ⟨rfl, rfl, rfl, rfl, rfl, rfl, rfl, rfl, rfl, rfl⟩
      | payToProvider => exact ⟨rfl, rfl, rfl, rfl, rfl, rfl, rfl, rfl, rfl, rfl⟩
      | subscriber => exact ⟨rfl, rfl, rfl, rfl, rfl, rfl, rfl, rfl, rfl, rfl⟩
      | payer => exact ⟨rfl, rfl, rfl, rfl, rfl, rfl, rfl, rfl, rfl, rfl⟩
      | renderingProvider => exact ⟨rfl, rfl, rfl, rfl, rfl, rfl, rfl, rfl, rfl, rfl⟩

/-- C7 amended, witness: a billing provider named and buffered, then an
N4 commits the completed address into the billing provider. -/
theorem n4_address_commit_spec_witness :
    (runSegs [("NM1".toList, ["NM1".toList, "85".toList, "2".toList, "BILLCO".toList]),
        ("N3".toList, ["N3".toList, "123 MAIN ST".toList])]).tempAddresses
      (runSegs [("NM1".toList, ["NM1".toList, "85".toList, "2".toList, "BILLCO".toList]),
        ("N3".toList, ["N3".toList, "123 MAIN ST".toList])]).currentEntity =
      some { street := some "123 MAIN ST".toList } ∧
    (stepN4 (runSegs [("NM1".toList, ["NM1".toList, "85".toList, "2".toList, "BILLCO".toList]),
        ("N3".toList, ["N3".toList, "123 MAIN ST".toList])])
      ["N4".toList, "SPRINGFIELD".toList, "IL".toList, "62704".toList]).billingProvider =
      { (runSegs [("NM1".toList, ["NM1".toList, "85".toList, "2".toList, "BILLCO".toList]),
          ("N3".toList, ["N3".toList, "123 MAIN ST".toList])]).billingProvider with
        address := some (completeAddr { street := some "123 MAIN ST".toList }
          ["N4".toList, "SPRINGFIELD".toList, "IL".toList, "62704".toList]) } := by
  refine ⟨rfl, ?_⟩
  have h := ((n4_address_commit_spec
    (runSegs [("NM1".toList, ["NM1".toList, "85".toList, "2".toList, "BILLCO".toList]),
        ("N3".toList, ["N3".toList, "123 MAIN ST".toList])])
    ["N4".toList, "SPRINGFIELD".toList, "IL".toList, "62704".toList]).2
    { street := some "123 MAIN ST".toList } rfl).2.1
  rw [h]
  rfl

/-!
## C9: orphan address segments before any recognized name
-/

/-- The state predicate maintained while no recognized NM1 has been
seen: no current entity, no buffered address under any entity key, no
committed address on any party, and no facility (hence no address) on
any claim. -/
def noEntityInv (s : PState) : Prop :=
  s.currentEntity = none ∧
  (∀ e : Entity, s.tempAddresses (some e) = none) ∧
  s.billingProvider.address = none ∧
  s.payToProvider.address = none ∧
  s.subscriber.address = none ∧
  (∀ c ∈ s.claimsData ++ s.currentClaim.toList, c.serviceFacility = none)

lemma stepNM1_unrecognized (s : PState) (elements : List PyStr)
    (h41 : ¬ clean_value (el elements 1) = "41".toList)
    (h40 : ¬ clean_value (el elements 1) = "40".toList)
    (h85 : ¬ clean_value (el elements 1) = "85".toList)
    (h87 : ¬ clean_value (el elements 1) = "87".toList)
    (hIL : ¬ clean_value (el elements 1) = "IL".toList)
    (hPR : ¬ clean_value (el elements 1) = "PR".toList)
    (h82 : ¬ clean_value (el elements 1) = "82".toList)
    (h77 : ¬ clean_value (el elements 1) = "77".toList) :
    stepNM1 s elements = s := by
  unfold stepNM1
  dsimp only
  rw [if_neg h41, if_neg h40, if_neg h85, if_neg h87, if_neg hIL, if_neg hPR,
    if_neg h82, if_neg h77]

lemma claimsInv_replace (cd : List ClaimRec) (c0 c1 : ClaimRec)
    (h : ∀ c ∈ cd ++ (some c0).toList, c.serviceFacility = none)
    (hsf : c1.serviceFacility = c0.serviceFacility) :
    ∀ c ∈ cd ++ (some c1).toList, c.serviceFacility = none := by
  intro c hm
  rcases List.mem_append.mp hm with hm | hm
  · exact h c (List.mem_append_left _ hm)
  · have he : c = c1 := by simpa using hm
    subst he
    rw [hsf]
    exact h c0 (List.mem_append_right _ (by simp))

lemma stepSeg_noEntityInv (s : PState) (seg : Seg)
    (hrec : recognizedNM1 seg = false) (hinv : noEntityInv s) :
    noEntityInv (stepSeg s seg) := by
  obtain ⟨hce, htmp, hbp, hpp, hsb, hcl⟩ := hinv
  obtain ⟨sid, elements⟩ := seg
  by_cases h1 : sid = "ISA".toList
  · subst h1
    exact ⟨hce, htmp, hbp, hpp, hsb, hcl⟩
  by_cases h2 : sid = "ST".toList
  · subst h2
    exact ⟨hce, htmp, hbp, hpp, hsb, hcl⟩
  by_cases h3 : sid = "BHT".toList
  · subst h3
    exact ⟨hce, htmp, hbp, hpp, hsb, hcl⟩
  by_cases h4 : sid = "NM1".toList
  · subst h4
    simp only [recognizedNM1] at hrec
    simp at hrec
    obtain ⟨h41, h40, h85, h87, hIL, hPR, h82, h77⟩ := hrec
    rw [stepSeg_NM1, stepNM1_unrecognized s elements (by simpa using h41)
      (by simpa using h40) (by simpa using h85) (by simpa using h87)
      (by simpa using hIL) (by simpa using hPR) (by simpa using h82)
      (by simpa using h77)]
    exact ⟨hce, htmp, hbp, hpp, hsb, hcl⟩
  by_cases h5 : sid = "N3".toList
  · subst h5
    rw [stepSeg_N3]
    refine ⟨hce, ?_, hbp, hpp, hsb, hcl⟩
    intro e
    show updateTemp s.tempAddresses s.currentEntity _ (some e) = none
    unfold updateTemp
    rw [hce, if_neg (fun hco => Option.noConfusion hco)]
    exact htmp e
  by_cases h6 : sid = "N4".toList
  · subst h6
    rw [stepSeg_N4]
    unfold stepN4
    dsimp only
    cases htmp0 : s.tempAddresses s.currentEntity with
    | none => exact ⟨hce, htmp, hbp, hpp, hsb, hcl⟩
    | some buf =>
      rw [hce]
      refine ⟨rfl, ?_, hbp, hpp, hsb, hcl⟩
      intro e
      show updateTemp s.tempAddresses none (some (completeAddr buf elements)) (some e) = none
      unfold updateTemp
      rw [if_neg (fun hco => Option.noConfusion hco)]
      exact htmp e
  by_cases h7 : sid = "PER".toList
  · subst h7
    rw [stepSeg_PER]
    split_ifs with hs1
    · rw [hce] at hs1
      exact Option.noConfusion hs1
    · exact ⟨hce, htmp, hbp, hpp, hsb, hcl⟩
  by_cases h8 : sid = "SBR".toList
  · subst h8
    exact ⟨hce, htmp, hbp, hpp, hsb, hcl⟩
  by_cases h9 : sid = "DMG".toList
  · subst h9
    rw [stepSeg_DMG]
    split_ifs with hs1
    · rw [hce] at hs1
      exact Option.noConfusion hs1
    · exact ⟨hce, htmp, hbp, hpp, hsb, hcl⟩
  by_cases h10 : sid = "CLM".toList
  · subst h10
    rw [stepSeg_CLM]
    cases hc : s.currentClaim with
    | none =>
      rw [hc] at hcl
      refine ⟨hce, htmp, hbp, hpp, hsb, ?_⟩
      intro c hm
      rcases List.mem_append.mp hm with hm | hm
      · exact hcl c (List.mem_append_left _ hm)
      · have he : c = mkClaim elements := by simpa using hm
        subst he
        rfl
    | some c0 =>
      rw [hc] at hcl
      refine ⟨hce, htmp, hbp, hpp, hsb, ?_⟩
      intro c hm
      rcases List.mem_append.mp hm with hm | hm
      · rcases List.mem_append.mp hm with hm2 | hm2
        · exact hcl c (List.mem_append_left _ hm2)
        · have he : c = c0 := by simpa using hm2
          subst he
          exact hcl c (List.mem_append_right _ (by simp))
      · have he : c = mkClaim elements := by simpa using hm
        subst he
        rfl
  by_cases h11 : sid = "HI".toList
  · subst h11
    rw [stepSeg_HI]
    cases hc : s.currentClaim with
    | none => exact ⟨hce, htmp, hbp, hpp, hsb, hcl⟩
    | some c0 =>
      rw [hc] at hcl
      obtain ⟨_, _, hsf⟩ := hiApply_proj c0 elements
      exact ⟨hce, htmp, hbp, hpp, hsb, claimsInv_replace s.claimsData c0 _ hcl hsf⟩
  by_cases h12 : sid = "DTP".toList
  · subst h12
    rw [stepSeg_DTP]
    unfold stepDTP
    dsimp only
    split_ifs with hq hq2
    · cases hc : s.currentClaim with
      | none => exact ⟨hce, htmp, hbp, hpp, hsb, hcl⟩
      | some c0 =>
        dsimp only
        rw [hc] at hcl
        split_ifs with hl
        · exact ⟨hce, htmp, hbp, hpp, hsb, by rw [hc]; exact hcl⟩
        · exact ⟨hce, htmp, hbp, hpp, hsb, claimsInv_replace s.claimsData c0 _ hcl rfl⟩
    · cases hc : s.currentClaim with
      | none => exact ⟨hce, htmp, hbp, hpp, hsb, hcl⟩
      | some c0 =>
        rw [hc] at hcl
        exact ⟨hce, htmp, hbp, hpp, hsb, claimsInv_replace s.claimsData c0 _ hcl rfl⟩
    · exact ⟨hce, htmp, hbp, hpp, hsb, hcl⟩
  by_cases h13 : sid = "REF".toList
  · subst h13
    rw [stepSeg_REF]
    cases hc : s.currentClaim with
    | none => exact ⟨hce, htmp, hbp, hpp, hsb, hcl⟩
    | some c0 =>
      dsimp only
      rw [hc] at hcl
      split_ifs with hd9
      · exact ⟨hce, htmp, hbp, hpp, hsb, claimsInv_replace s.claimsData c0 _ hcl rfl⟩
      · exact ⟨hce, htmp, hbp, hpp, hsb, by rw [hc]; exact hcl⟩
  by_cases h14 : sid = "LX".toList
  · subst h14
    rw [stepSeg_LX]
    cases hc : s.currentClaim with
    | none => exact ⟨hce, htmp, hbp, hpp, hsb, hcl⟩
    | some c0 =>
      rw [hc] at hcl
      exact ⟨hce, htmp, hbp, hpp, hsb, claimsInv_replace s.claimsData c0 _ hcl rfl⟩
  by_cases h15 : sid = "SV1".toList
  · subst h15
    rw [stepSeg_SV1]
    cases hc : s.currentClaim with
    | none => exact ⟨hce, htmp, hbp, hpp, hsb, hcl⟩
    | some c0 =>
      dsimp only
      rw [hc] at hcl
      split_ifs with hl hpos
      · exact ⟨hce, htmp, hbp, hpp, hsb, by rw [hc]; exact hcl⟩
      · exact ⟨hce, htmp, hbp, hpp, hsb, claimsInv_replace s.claimsData c0 _ hcl rfl⟩
      · exact ⟨hce, htmp, hbp, hpp, hsb, claimsInv_replace s.claimsData c0 _ hcl rfl⟩
  rw [stepSeg_other s (sid, elements) h1 h2 h3 h4 h5 h6 h7 h8 h9 h10 h11 h12 h13 h14 h15]
  exact ⟨hce, htmp, hbp, hpp, hsb, hcl⟩

lemma foldl_noEntityInv : ∀ (segs : List Seg) (s : PState),
    (∀ seg ∈ segs, recognizedNM1 seg = false) → noEntityInv s →
    noEntityInv (segs.foldl stepSeg s) := by
  intro segs
  induction segs with
  | nil => intro s _ hinv; exact hinv
  | cons g gs ih =>
    intro s hall hinv
    rw [List.foldl_cons]
    exact ih (stepSeg s g) (fun seg m => hall seg (List.mem_cons_of_mem g m))
      (stepSeg_noEntityInv s g (hall g (List.mem_cons_self g gs)) hinv)

/-- C9.  In a stream in which no recognized name segment ever sets a
current entity, street and city segments are processed without any
failure path (the step function is total) and commit no address: after
the run there is still no current entity, every entity-keyed address
buffer is empty, no party carries an address, and no committed or open
claim carries a service facility (hence no claim-level address); any
buffered street sits under the empty context only. -/
theorem orphan_address_spec (segs : List Seg)
    (h : ∀ seg ∈ segs, recognizedNM1 seg = false) :
    (runSegs segs).currentEntity = none ∧
    (∀ e : Entity, (runSegs segs).tempAddresses (some e) = none) ∧
    (runSegs segs).billingProvider.address = none ∧
    (runSegs segs).payToProvider.address = none ∧
    (runSegs segs).subscriber.address = none ∧
    (∀ c ∈ finalClaims (runSegs segs), c.serviceFacility = none) :=
  foldl_noEntityInv segs initState h
    ⟨rfl, fun _ => rfl, rfl, rfl, rfl, fun c hm => absurd hm (by simp [initState])⟩

/-- C9 witness at a concrete orphan N3/N4 pair (with a claim opened
afterwards). -/
theorem orphan_address_spec_witness :
    (runSegs [("N3".toList, ["N3".toList, "12 ORPHAN RD".toList]),
        ("N4".toList, ["N4".toList, "NOWHERE".toList, "KS".toList, "66000".toList]),
        ("CLM".toList, ["CLM".toList, "X9".toList])]).currentEntity = none ∧
    (∀ e : Entity, (runSegs [("N3".toList, ["N3".toList, "12 ORPHAN RD".toList]),
        ("N4".toList, ["N4".toList, "NOWHERE".toList, "KS".toList, "66000".toList]),
        ("CLM".toList, ["CLM".toList, "X9".toList])]).tempAddresses (some e) = none) ∧
    (runSegs [("N3".toList, ["N3".toList, "12 ORPHAN RD".toList]),
        ("N4".toList, ["N4".toList, "NOWHERE".toList, "KS".toList, "66000".toList]),
        ("CLM".toList, ["CLM".toList, "X9".toList])]).billingProvider.address = none ∧
    (runSegs [("N3".toList, ["N3".toList, "12 ORPHAN RD".toList]),
        ("N4".toList, ["N4".toList, "NOWHERE".toList, "KS".toList, "66000".toList]),
        ("CLM".toList, ["CLM".toList, "X9".toList])]).payToProvider.address = none ∧
    (runSegs [("N3".toList, ["N3".toList, "12 ORPHAN RD".toList]),
        ("N4".toList, ["N4".toList, "NOWHERE".toList, "KS".toList, "66000".toList]),
        ("CLM".toList, ["CLM".toList, "X9".toList])]).subscriber.address = none ∧
    (∀ c ∈ finalClaims (runSegs [("N3".toList, ["N3".toList, "12 ORPHAN RD".toList]),
        ("N4".toList, ["N4".toList, "NOWHERE".toList, "KS".toList, "66000".toList]),
        ("CLM".toList, ["CLM".toList, "X9".toList])]), c.serviceFacility = none) :=
  orphan_address_spec [("N3".toList, ["N3".toList, "12 ORPHAN RD".toList]),
      ("N4".toList, ["N4".toList, "NOWHERE".toList, "KS".toList, "66000".toList]),
      ("CLM".toList, ["CLM".toList, "X9".toList])] (by decide)
